import Mathlib

/-!
# Trillek virtual computer: generic keyboard and text display adapter

A shallow embedding of `src/devices/gkeyb.cpp` and `src/devices/tda.cpp`.

Machine integers are natural numbers; a conversion to a narrower C++ type is
written as an explicit `%`: `Byte` is 8 bits, `Word` 16 bits, `DWord` and
`unsigned` 32 bits.  A device is a record of its member variables and every
member function is a function from the old record to the new one.
-/

namespace trillek.computer

/-! ## Snapshot container (`DeviceState`) -/

/-- Type tag of a snapshot property (`DeviceState_DeviceProperty_Type_*`). -/
inductive DevicePropertyType where
  | BOOL
  | INT
  | RAW
deriving DecidableEq

/-- One named property of a snapshot.  Unset value fields hold the
protobuf defaults `0`, `false` and the empty byte string. -/
structure DeviceProperty where
  type : DevicePropertyType
  name : String
  ivalue : Nat
  bvalue : Bool
  rvalue : List Nat
deriving DecidableEq

/-- The snapshot message: the register slots and the list of properties, in
the order in which `add_properties` appended them. -/
structure DeviceState where
  a : Nat
  b : Nat
  c : Nat
  d : Nat
  e : Nat
  properties : List DeviceProperty
deriving DecidableEq

/-- A fresh property with `set_type(INT)`, `set_name` and `set_ivalue`. -/
def intProperty (name : String) (v : Nat) : DeviceProperty :=
  { type := DevicePropertyType.INT, name := name, ivalue := v, bvalue := false, rvalue := [] }

/-- A fresh property with `set_type(BOOL)`, `set_name` and `set_bvalue`. -/
def boolProperty (name : String) (v : Bool) : DeviceProperty :=
  { type := DevicePropertyType.BOOL, name := name, ivalue := 0, bvalue := v, rvalue := [] }

/-- A fresh property with `set_type(RAW)`, `set_name` and `set_rvalue`. -/
def rawProperty (name : String) (bytes : List Nat) : DeviceProperty :=
  { type := DevicePropertyType.RAW, name := name, ivalue := 0, bvalue := false, rvalue := bytes }

/-- A snapshot message before any device has written into it. -/
def emptySnapshot : DeviceState :=
  { a := 0, b := 0, c := 0, d := 0, e := 0, properties := [] }

/-- The four bytes of a `DWord` as they lie in host memory (little endian). -/
def dwordBytes (w : Nat) : List Nat :=
  [w % 256, w / 256 % 256, w / 65536 % 256, w / 16777216 % 256]

/-- The raw image of a `DWord` array: what `set_rvalue((void*) buff, n*4)` copies. -/
def rawOfDWords (buff : List Nat) : List Nat :=
  buff.flatMap dwordBytes

/-- Reading `((DWord*) raw)[i]`: the four bytes at offset `4*i`. -/
def readDWord (raw : List Nat) (i : Nat) : Nat :=
  raw.getD (4 * i) 0 + 256 * raw.getD (4 * i + 1) 0
    + 65536 * raw.getD (4 * i + 2) 0 + 16777216 * raw.getD (4 * i + 3) 0

/-! ## Generic keyboard (`gkeyb.cpp`) -/

namespace gkeyboard

/-- Member variables of `GKeyboardDev`.  `keybuffer` is the `std::deque`,
front element first. -/
structure GKeyboardDev where
  a : Nat
  b : Nat
  c : Nat
  keybuffer : List Nat
  int_msg : Nat
  do_int : Bool
deriving DecidableEq

namespace GKeyboardDev

/-- The values a C++ object of this class can hold: `Word` registers and
message, `DWord` queue entries. -/
def WellTyped (s : GKeyboardDev) : Prop :=
  s.a < 65536 ∧ s.b < 65536 ∧ s.c < 65536 ∧ s.int_msg < 65536 ∧
    ∀ ev ∈ s.keybuffer, ev < 4294967296

instance (s : GKeyboardDev) : Decidable (WellTyped s) := by
  unfold WellTyped; infer_instance

/-- Function `GKeyboardDev::Reset`. -/
def Reset (s : GKeyboardDev) : GKeyboardDev :=
  { s with a := 0, b := 0, c := 0, keybuffer := [], int_msg := 0, do_int := false }

/-- Function `GKeyboardDev::DoesInterrupt`: the device after the call, the returned
flag and the content of the reference argument `msg` after the call. -/
def DoesInterrupt (s : GKeyboardDev) (msg : Nat) : GKeyboardDev × Bool × Nat :=
  if s.do_int && s.int_msg != 0 then (s, true, s.int_msg) else (s, false, msg)

/-- The packed event built by `PUSH_KEY`. -/
def keyevent (a b c : Nat) : Nat :=
  (((c &&& 7) <<< 24) ||| ((a &&& 0xFF) <<< 16) ||| b) % 4294967296

/-- Function `GKeyboardDev::SendCMD`; `BSIZE` is the capacity constant of the header. -/
def SendCMD (BSIZE : Nat) (s : GKeyboardDev) (cmd : Nat) : GKeyboardDev :=
  if cmd = 0x0000 then
    { s with keybuffer := [] }
  else if cmd = 0x0001 then
    match s.keybuffer with
    | tmp :: rest =>
      { s with
        keybuffer := rest
        c := (tmp >>> 24) % 65536
        b := (tmp &&& 0xFFFF) % 65536
        a := ((tmp >>> 16) &&& 0xFF) % 65536 }
    | [] => { s with a := 0, b := 0, c := 0 }
  else if cmd = 0x0002 then
    if s.keybuffer.length < BSIZE then
      { s with keybuffer := keyevent s.a s.b s.c :: s.keybuffer }
    else s
  else if cmd = 0x0003 then
    { s with int_msg := s.a }
  else s

/-- Function `GKeyboardDev::IACK`. -/
def IACK (s : GKeyboardDev) : GKeyboardDev :=
  { s with do_int := false }

/-- Function `GKeyboardDev::GetState`.  `Device_GetState` is the base class part,
which is not in the device file. -/
def GetState (Device_GetState : DeviceState → DeviceState) (s : GKeyboardDev)
    (out : DeviceState) : DeviceState :=
  let out := Device_GetState out
  let out := { out with a := s.a, b := s.b, c := s.c }
  let out := { out with properties := [] }
  let out := { out with properties := out.properties ++ [intProperty "int_msg" s.int_msg] }
  let out := { out with properties := out.properties ++ [boolProperty "do_int" s.do_int] }
  if s.keybuffer ≠ [] then
    { out with properties := out.properties ++
      [rawProperty "keybuffer" (rawOfDWords s.keybuffer)] }
  else out

/-- One turn of the property loop of `GKeyboardDev::SetState`. -/
def applyProperty (s : GKeyboardDev) (prop : DeviceProperty) : GKeyboardDev :=
  if prop.name = "int_msg" then
    { s with int_msg := prop.ivalue % 65536 }
  else if prop.name = "do_int" then
    { s with do_int := prop.bvalue }
  else if prop.name = "keybuffer" then
    let len := prop.rvalue.length / 4
    (List.range len).foldl
      (fun s i => { s with keybuffer := s.keybuffer ++ [readDWord prop.rvalue i] }) s
  else s

/-- Function `GKeyboardDev::SetState`: the returned flag and the device after the
call.  `Device_SetState` is the base class check, not in the device file. -/
def SetState (Device_SetState : DeviceState → Bool) (s : GKeyboardDev)
    (inp : DeviceState) : Bool × GKeyboardDev :=
  if !Device_SetState inp then (false, s)
  else
    let s := { s with a := inp.a % 65536, b := inp.b % 65536, c := inp.c % 65536 }
    let s := { s with keybuffer := [] }
    (true, inp.properties.foldl applyProperty s)

/-- The packed event of a register triple. -/
def eventOf (abc : Nat × Nat × Nat) : Nat := keyevent abc.1 abc.2.1 abc.2.2

/-- The register ranges of the keyboard protocol: 8-bit key code, 16-bit
scan code, 3-bit status. -/
def InRange (abc : Nat × Nat × Nat) : Prop :=
  abc.1 ≤ 0xFF ∧ abc.2.1 ≤ 0xFFFF ∧ abc.2.2 ≤ 7

instance (abc : Nat × Nat × Nat) : Decidable (InRange abc) := by
  unfold InRange; infer_instance

/-- A keyboard as `Reset` leaves it. -/
def fresh : GKeyboardDev :=
  { a := 0, b := 0, c := 0, keybuffer := [], int_msg := 0, do_int := false }

/-- A keyboard with two queued events, a latched message and a pending
interrupt. -/
def sampleDev : GKeyboardDev :=
  { a := 0x41, b := 0x001E, c := 0x02, keybuffer := [0x0241001E, 0x00420030],
    int_msg := 0x0020, do_int := true }

/-- Number of 32-bit words that the `keybuffer` properties of a snapshot carry. -/
def snapshotWords (props : List DeviceProperty) : Nat :=
  ((props.filter (fun p => p.name = "keybuffer")).map (fun p => p.rvalue.length / 4)).sum

/-- A snapshot whose `keybuffer` blob carries 65 events. -/
def oversizedSnapshot : DeviceState :=
  { emptySnapshot with properties := [rawProperty "keybuffer" (List.replicate 260 0)] }

/-- What the CPU and the bus do to a keyboard between snapshots: reset it,
write the three registers, send a command, acknowledge an interrupt. -/
inductive Op where
  | reset
  | writeRegs (a b c : Nat)
  | sendCMD (cmd : Nat)
  | iack

/-- The effect of one operation. -/
def step (BSIZE : Nat) (s : GKeyboardDev) : Op → GKeyboardDev
  | Op.reset => Reset s
  | Op.writeRegs a b c => { s with a := a % 65536, b := b % 65536, c := c % 65536 }
  | Op.sendCMD cmd => SendCMD BSIZE s cmd
  | Op.iack => IACK s

/-- The effect of a sequence of operations. -/
def run (BSIZE : Nat) (ops : List Op) (s : GKeyboardDev) : GKeyboardDev :=
  ops.foldl (step BSIZE) s

/-- The CPU writes the three registers and then sends `PUSH_KEY`. -/
def pushKey (BSIZE : Nat) (s : GKeyboardDev) (abc : Nat × Nat × Nat) : GKeyboardDev :=
  SendCMD BSIZE { s with a := abc.1, b := abc.2.1, c := abc.2.2 } 0x0002

/-- The CPU sends `PULL_KEY` `n` times and reads `(a, b, c)` after each. -/
def pullKeys (BSIZE : Nat) : Nat → GKeyboardDev → List (Nat × Nat × Nat) × GKeyboardDev
  | 0, s => ([], s)
  | n + 1, s =>
    let s1 := SendCMD BSIZE s 0x0001
    let r := pullKeys BSIZE n s1
    ((s1.a, s1.b, s1.c) :: r.1, r.2)

end GKeyboardDev

end gkeyboard

/-! ## Text display adapter (`tda.cpp`) -/

namespace tda

/-- Modelled from the spec: the constant `WIDTH_CHARS` of the device header,
the 40 columns of the text grid. -/
def WIDTH_CHARS : Nat := 40

/-- Modelled from the spec: the constant `HEIGHT_CHARS` of the device header,
the 30 rows of the text grid. -/
def HEIGHT_CHARS : Nat := 30

/-- The fields of `TDAScreen` that the rasterizer reads.  The two buffers
are indexed like the C arrays. -/
structure TDAScreen where
  txt_buffer : Nat → Nat
  font_buffer : Nat → Nat
  user_font : Bool
  cursor : Bool
  cur_col : Nat
  cur_row : Nat
  cur_color : Nat
  cur_start : Nat
  cur_end : Nat

/-- The glyph loops of `TDAtoRGBATexture` for the cell `(row, col)`. -/
def paintCell (PALETTE : Nat → Nat) (font : Nat → Nat) (screen : TDAScreen)
    (row col : Nat) (texture : Nat → Nat) : Nat → Nat :=
  let addr := col + (WIDTH_CHARS * row)
  let c := screen.txt_buffer addr % 256
  let fg := (screen.txt_buffer addr >>> 8) &&& 0x0F
  let bg := (screen.txt_buffer addr >>> 12) &&& 0x0F
  (List.range 8).foldl (fun texture y =>
    let pixels := font (c * 8 + y)
    (List.range 8).foldl (fun texture x =>
      let addr := x + col * 8 + (40 * 8 * (y + row * 8))
      if (pixels &&& (1 <<< (7 - x))) ≠ 0 then
        Function.update texture addr (PALETTE fg)
      else
        Function.update texture addr (PALETTE bg)) texture) texture

/-- The loops over all rows and columns of the text buffer. -/
def paintText (PALETTE : Nat → Nat) (font : Nat → Nat) (screen : TDAScreen)
    (texture : Nat → Nat) : Nat → Nat :=
  (List.range HEIGHT_CHARS).foldl (fun texture row =>
    (List.range WIDTH_CHARS).foldl (fun texture col =>
      paintCell PALETTE font screen row col texture) texture) texture

/-- The two loops that paint the cursor, `y` from `cur_start` to `cur_end`. -/
def paintCursor (screen : TDAScreen) (row col color : Nat) (texture : Nat → Nat) : Nat → Nat :=
  (List.range' screen.cur_start (screen.cur_end + 1 - screen.cur_start)).foldl (fun texture y =>
    (List.range 8).foldl (fun texture x =>
      let addr := x + col * 8 + (40 * 8 * (y + row * 8))
      Function.update texture addr color) texture) texture

/-- Function `TDAtoRGBATexture (screen, texture, frames)`: the texture and the frame
counter after the call.  `PALETTE` and `ROM_FONT` are the tables of the
device header. -/
def TDAtoRGBATexture (PALETTE ROM_FONT : Nat → Nat) (screen : TDAScreen)
    (texture : Nat → Nat) (frames : Nat) : (Nat → Nat) × Nat :=
  let font := if screen.user_font then screen.font_buffer else ROM_FONT
  let texture := paintText PALETTE font screen texture
  if screen.cursor then
    if frames < 8 then
      let frames := (frames + 1) % 4294967296
      if screen.cur_start ≤ screen.cur_end then
        let col := screen.cur_col % 256
        let row := screen.cur_row % 256
        let color := PALETTE screen.cur_color
        if row < 30 ∧ col < 40 then
          (paintCursor screen row col color texture, frames)
        else (texture, frames)
      else (texture, frames)
    else
      let frames := (frames + 1) % 4294967296
      if frames < 16 then
        (texture, (frames + 1) % 4294967296)
      else
        (texture, 0)
  else (texture, frames)

/-- The red/blue exchange that `TDAtoBGRATexture` applies to one pixel. -/
def swapPixel (p : Nat) : Nat :=
  let g_a := p &&& 0xFF00FF00
  let red := p &&& 0x000000FF
  let blue := p &&& 0x00FF0000
  (g_a ||| (red <<< 16) ||| (blue >>> 16)) % 4294967296

/-- Function `TDAtoBGRATexture (screen, texture, frames)`. -/
def TDAtoBGRATexture (PALETTE ROM_FONT : Nat → Nat) (screen : TDAScreen)
    (texture : Nat → Nat) (frames : Nat) : (Nat → Nat) × Nat :=
  let r := TDAtoRGBATexture PALETTE ROM_FONT screen texture frames
  let texture := (List.range (320 * 240)).foldl (fun texture i =>
    Function.update texture i (swapPixel (texture i))) r.1
  (texture, r.2)

/-- Consecutive calls of the renderer on one output buffer, the frame
counter of each call being the one its predecessor left: the texture and
the counter after `k` calls. -/
def renderCalls (PALETTE ROM_FONT : Nat → Nat) (screen : TDAScreen) :
    Nat → (Nat → Nat) × Nat → (Nat → Nat) × Nat
  | 0, st => st
  | k + 1, st =>
    let st1 := renderCalls PALETTE ROM_FONT screen k st
    TDAtoRGBATexture PALETTE ROM_FONT screen st1.1 st1.2

/-- The screen of the blink scenario: cursor enabled at row 0, column 0,
scan lines 6 to 7. -/
def witnessScreen (txt font : Nat → Nat) (user_font : Bool) (color : Nat) : TDAScreen :=
  { txt_buffer := txt, font_buffer := font, user_font := user_font, cursor := true,
    cur_col := 0, cur_row := 0, cur_color := color, cur_start := 6, cur_end := 7 }

/-- The screen of the text scenario: every cell `0x0F41`, built-in font,
cursor disabled. -/
def plainScreen : TDAScreen :=
  { witnessScreen (fun _ => 0x0F41) (fun _ => 0) false 15 with cursor := false }

/-- The frame counter before call `k` (counted from 0) when it starts at 0
and the cursor is enabled: 0, 1, ..., 8, 10, 12, 14, 16 and then 0 again. -/
def blinkFrames (k : Nat) : Nat :=
  if k % 13 ≤ 8 then k % 13 else 2 * (k % 13) - 8

/-- The colour of the text pass at pixel `(x, y)` of the cell `(row, col)`
as the specification words it: glyph index, ink and paper taken from the
cell word, bit `7 - x` of byte `8 * g + y` of the selected font. -/
def textPixelSpec (PALETTE ROM_FONT : Nat → Nat) (screen : TDAScreen)
    (row col x y : Nat) : Nat :=
  let w := screen.txt_buffer (col + 40 * row)
  let g := w &&& 0xFF
  let fg := (w >>> 8) &&& 0xF
  let bg := (w >>> 12) &&& 0xF
  let font := if screen.user_font then screen.font_buffer else ROM_FONT
  if (font (8 * g + y)).testBit (7 - x) then PALETTE fg else PALETTE bg

/-- One array access of the rasterizer: a read of `screen.txt_buffer[i]`,
of `font[i]` or of `PALETTE[i]`, or the store `texture[i] = v`. -/
inductive Access where
  | txt (i : Nat)
  | font (i : Nat)
  | palette (i : Nat)
  | texture (i v : Nat)

/-- The index of an access lies inside its array: 1200 cells of text, 2048
bytes of font, 16 palette entries, 320 by 240 pixels. -/
def Access.InBounds : Access → Prop
  | Access.txt i => i < 1200
  | Access.font i => i < 2048
  | Access.palette i => i < 16
  | Access.texture i _ => i < 320 * 240

instance (a : Access) : Decidable a.InBounds := by
  cases a <;> unfold Access.InBounds <;> infer_instance

/-- The accesses of the glyph loops for the cell `(row, col)`, in program
order: the three reads of the cell word, then per line the font byte and
per pixel the palette entry and the store. -/
def paintCellLog (PALETTE : Nat → Nat) (font : Nat → Nat) (screen : TDAScreen)
    (row col : Nat) : List Access :=
  let addr := col + (WIDTH_CHARS * row)
  let c := screen.txt_buffer addr % 256
  let fg := (screen.txt_buffer addr >>> 8) &&& 0x0F
  let bg := (screen.txt_buffer addr >>> 12) &&& 0x0F
  [Access.txt addr, Access.txt addr, Access.txt addr] ++
  (List.range 8).flatMap (fun y =>
    let pixels := font (c * 8 + y)
    Access.font (c * 8 + y) :: (List.range 8).flatMap (fun x =>
      let addr := x + col * 8 + (40 * 8 * (y + row * 8))
      if (pixels &&& (1 <<< (7 - x))) ≠ 0 then
        [Access.palette fg, Access.texture addr (PALETTE fg)]
      else
        [Access.palette bg, Access.texture addr (PALETTE bg)]))

/-- The accesses of the loops over all rows and columns. -/
def paintTextLog (PALETTE : Nat → Nat) (font : Nat → Nat) (screen : TDAScreen) :
    List Access :=
  (List.range HEIGHT_CHARS).flatMap (fun row =>
    (List.range WIDTH_CHARS).flatMap (fun col => paintCellLog PALETTE font screen row col))

/-- The stores of the two cursor loops. -/
def paintCursorLog (screen : TDAScreen) (row col color : Nat) : List Access :=
  (List.range' screen.cur_start (screen.cur_end + 1 - screen.cur_start)).flatMap (fun y =>
    (List.range 8).flatMap (fun x =>
      let addr := x + col * 8 + (40 * 8 * (y + row * 8))
      [Access.texture addr color]))

/-- The accesses of one call of `TDAtoRGBATexture`, in program order. -/
def TDAtoRGBATextureLog (PALETTE ROM_FONT : Nat → Nat) (screen : TDAScreen)
    (frames : Nat) : List Access :=
  let font := if screen.user_font then screen.font_buffer else ROM_FONT
  paintTextLog PALETTE font screen ++
  (if screen.cursor then
    if frames < 8 then
      if screen.cur_start ≤ screen.cur_end then
        let col := screen.cur_col % 256
        let row := screen.cur_row % 256
        let color := PALETTE screen.cur_color
        Access.palette screen.cur_color ::
          (if row < 30 ∧ col < 40 then paintCursorLog screen row col color else [])
      else []
    else []
  else [])

/-- The effect of one access on the output buffer. -/
def Access.apply (texture : Nat → Nat) : Access → (Nat → Nat)
  | Access.texture i v => Function.update texture i v
  | _ => texture

/-- The output buffer after a sequence of accesses. -/
def replay (log : List Access) (texture : Nat → Nat) : Nat → Nat :=
  log.foldl Access.apply texture

/-- Byte lane `k` of a 32-bit colour, lane 0 being the lowest byte. -/
def byteLane (p k : Nat) : Nat :=
  p / 256 ^ k % 256

/-- The swap as the specification words it: lanes 0 and 2 exchanged,
lanes 1 and 3 kept. -/
def swapRedBlueSpec (p : Nat) : Nat :=
  byteLane p 2 + 256 * byteLane p 1 + 65536 * byteLane p 0 + 16777216 * byteLane p 3

/-- Member variables of `TDADev`. -/
structure TDADev where
  a : Nat
  b : Nat
  d : Nat
  e : Nat
  buffer_ptr : Nat
  font_ptr : Nat
  vsync_msg : Nat
  do_vsync : Bool
  cursor : Bool
  blink : Bool
deriving DecidableEq

namespace TDADev

/-- The values a C++ object of this class can hold: `Word` registers and
message, `DWord` pointers. -/
def WellTyped (s : TDADev) : Prop :=
  s.a < 65536 ∧ s.b < 65536 ∧ s.d < 65536 ∧ s.e < 65536 ∧
    s.buffer_ptr < 4294967296 ∧ s.font_ptr < 4294967296 ∧ s.vsync_msg < 65536

instance (s : TDADev) : Decidable (WellTyped s) := by
  unfold WellTyped; infer_instance

/-- A display adapter with both pointers mapped. -/
def sampleDev : TDADev :=
  { a := 1, b := 2, d := 3, e := 4, buffer_ptr := 0x2000, font_ptr := 0x1000,
    vsync_msg := 0x0010, do_vsync := true, cursor := true, blink := true }

/-- A display adapter as `Reset` leaves it. -/
def fresh : TDADev :=
  { a := 0, b := 0, d := 0, e := 0, buffer_ptr := 0, font_ptr := 0,
    vsync_msg := 0, do_vsync := false, cursor := false, blink := false }

/-- A snapshot that carries both pointer properties, `buffer_ptr` first. -/
def pointerSnapshot : DeviceState :=
  { emptySnapshot with
    properties := [intProperty "buffer_ptr" 0x2000, intProperty "font_ptr" 0x1000] }

/-- The snapshot `pointerSnapshot` with its two properties in the other order. -/
def pointerSnapshotSwapped : DeviceState :=
  { emptySnapshot with
    properties := [intProperty "font_ptr" 0x1000, intProperty "buffer_ptr" 0x2000] }

/-- Function `TDADev::Reset`. -/
def Reset (s : TDADev) : TDADev :=
  { s with
    buffer_ptr := 0, font_ptr := 0, vsync_msg := 0, a := 0, b := 0, d := 0, e := 0
    do_vsync := false, cursor := false, blink := false }

/-- Function `TDADev::SendCMD`.  `TXT_BUFFER_SIZE` and `FONT_BUFFER_SIZE` are the
size constants of the device header, `RamSize` and `RomSize` what the
computer reports.  `tmp` is a `DWord` and the constants are taken to be
`unsigned` like the loop counters they are compared with, so the sums and
the difference are 32-bit unsigned; the comparison with the reported size
is exact. -/
def SendCMD (TXT_BUFFER_SIZE FONT_BUFFER_SIZE RamSize RomSize : Nat) (s : TDADev)
    (cmd : Nat) : TDADev :=
  if cmd = 0x0000 then
    let tmp := ((s.b <<< 16) ||| s.a) % 4294967296
    if (tmp + TXT_BUFFER_SIZE) % 4294967296 < RamSize then
      { s with buffer_ptr := tmp }
    else s
  else if cmd = 0x0001 then
    let tmp := ((s.b <<< 16) ||| s.a) % 4294967296
    if (tmp + FONT_BUFFER_SIZE) % 4294967296 ≤ RamSize then
      { s with font_ptr := tmp }
    else if ((tmp + 4294967296 - 0x100000) % 4294967296 + FONT_BUFFER_SIZE) % 4294967296
        ≤ RomSize then
      { s with font_ptr := tmp }
    else s
  else if cmd = 0x0002 then
    { s with vsync_msg := s.a }
  else s

/-- Function `TDADev::DoesInterrupt`: the device after the call, the returned flag
and the content of the reference argument `msg` after the call. -/
def DoesInterrupt (s : TDADev) (msg : Nat) : TDADev × Bool × Nat :=
  if s.do_vsync && s.vsync_msg != 0 then (s, true, s.vsync_msg) else (s, false, msg)

/-- Function `TDADev::IACK`. -/
def IACK (s : TDADev) : TDADev :=
  { s with do_vsync := false }

/-- Function `TDADev::GetState`.  `Device_GetState` is the base class part, which is
not in the device file. -/
def GetState (Device_GetState : DeviceState → DeviceState) (s : TDADev)
    (out : DeviceState) : DeviceState :=
  let out := Device_GetState out
  let out := { out with a := s.a, b := s.b, d := s.d, e := s.e }
  let out := { out with properties := [] }
  let out := { out with properties := out.properties ++ [intProperty "vsync_msg" s.vsync_msg] }
  let out := { out with properties := out.properties ++ [boolProperty "do_vsync" s.do_vsync] }
  let out := { out with properties := out.properties ++ [boolProperty "cursor" s.cursor] }
  let out := { out with properties := out.properties ++ [boolProperty "blink" s.blink] }
  let out :=
    if s.buffer_ptr ≠ 0 then
      { out with properties := out.properties ++ [intProperty "buffer_ptr" s.buffer_ptr] }
    else out
  if s.font_ptr ≠ 0 then
    { out with properties := out.properties ++ [intProperty "font_ptr" s.font_ptr] }
  else out

/-- One turn of the property loop of `TDADev::SetState`. -/
def applyProperty (s : TDADev) (prop : DeviceProperty) : TDADev :=
  if prop.name = "vsync_msg" then
    { s with vsync_msg := prop.ivalue % 65536 }
  else if prop.name = "do_vsync" then
    { s with do_vsync := prop.bvalue }
  else if prop.name = "cursor" then
    { s with cursor := prop.bvalue }
  else if prop.name = "blink" then
    { s with blink := prop.bvalue }
  else if prop.name = "buffer_ptr" then
    { s with buffer_ptr := prop.ivalue % 4294967296 }
  else if prop.name = "font_ptr" then
    { s with buffer_ptr := prop.ivalue % 4294967296 }
  else s

/-- Function `TDADev::SetState`: the returned flag and the device after the call.
`Device_SetState` is the base class check, not in the device file. -/
def SetState (Device_SetState : DeviceState → Bool) (s : TDADev)
    (inp : DeviceState) : Bool × TDADev :=
  if !Device_SetState inp then (false, s)
  else
    let s := { s with a := inp.a % 65536, b := inp.b % 65536, d := inp.d % 65536,
                      e := inp.e % 65536 }
    (true, inp.properties.foldl applyProperty s)

/-- Function `TDADev::IsSyncDev`. -/
def IsSyncDev (_s : TDADev) : Bool := false

end TDADev

end tda

end trillek.computer

/-! # Theorems -/

namespace trillek.computer

/-! ## Bit operations as arithmetic -/

theorem shiftLeft_or_eq_add (x y k : Nat) (h : y < 2 ^ k) :
    (x <<< k) ||| y = x * 2 ^ k + y := by
  rw [Nat.shiftLeft_eq, Nat.mul_comm x, Nat.mul_add_lt_is_or h]

theorem and_shifted_mask (p k s : Nat) :
    p &&& ((2 ^ k - 1) <<< s) = ((p >>> s) % 2 ^ k) <<< s := by
  apply Nat.eq_of_testBit_eq
  intro i
  simp only [Nat.testBit_and, Nat.testBit_shiftLeft, Nat.testBit_two_pow_sub_one,
    Nat.testBit_mod_two_pow, Nat.testBit_shiftRight]
  by_cases h : s ≤ i
  · have e : s + (i - s) = i := by omega
    simp [h, e, Bool.and_comm]
  · simp [h]

theorem and_0x07 (x : Nat) : x &&& 7 = x % 8 :=
  Nat.and_pow_two_sub_one_eq_mod x 3

theorem and_0x0F (x : Nat) : x &&& 0x0F = x % 16 :=
  Nat.and_pow_two_sub_one_eq_mod x 4

theorem and_0xFF (x : Nat) : x &&& 0xFF = x % 256 :=
  Nat.and_pow_two_sub_one_eq_mod x 8

theorem and_0xFFFF (x : Nat) : x &&& 0xFFFF = x % 65536 :=
  Nat.and_pow_two_sub_one_eq_mod x 16

/-! ## The red/blue exchange of one pixel -/

namespace tda

theorem and_0xFF0000 (p : Nat) : p &&& 0x00FF0000 = (p / 65536 % 256) <<< 16 := by
  have h := and_shifted_mask p 8 16
  simp only [Nat.shiftRight_eq_div_pow] at h
  norm_num at h
  exact h

theorem and_0xFF00FF00 (p : Nat) :
    p &&& 0xFF00FF00 = ((p / 16777216 % 256) <<< 24) ||| ((p / 256 % 256) <<< 8) := by
  have e : (0xFF00FF00 : Nat) = ((2 ^ 8 - 1) <<< 24) ||| ((2 ^ 8 - 1) <<< 8) := by decide
  rw [e, Nat.and_or_distrib_left, and_shifted_mask, and_shifted_mask]
  simp only [Nat.shiftRight_eq_div_pow]
  norm_num

theorem swapPixel_eq (p : Nat) : swapPixel p = swapRedBlueSpec p := by
  have h0 : p % 256 < 256 := Nat.mod_lt _ (by norm_num)
  have h1 : p / 256 % 256 < 256 := Nat.mod_lt _ (by norm_num)
  have h2 : p / 65536 % 256 < 256 := Nat.mod_lt _ (by norm_num)
  have h3 : p / 16777216 % 256 < 256 := Nat.mod_lt _ (by norm_num)
  have hb : ((p / 65536 % 256) <<< 16) >>> 16 = p / 65536 % 256 := by
    rw [Nat.shiftLeft_eq, Nat.shiftRight_eq_div_pow]
    norm_num
  have hor : ∀ X Y Z W : Nat, ((X ||| Y) ||| Z) ||| W = X ||| (Z ||| (Y ||| W)) := by
    intro X Y Z W
    rw [Nat.or_assoc X Y Z, Nat.or_comm Y Z, Nat.or_assoc, Nat.or_assoc]
  unfold swapPixel swapRedBlueSpec byteLane
  simp only []
  rw [and_0xFF00FF00, and_0xFF0000, Nat.and_pow_two_sub_one_eq_mod p 8, hb, hor,
    shiftLeft_or_eq_add _ _ 8 (by norm_num; exact h2),
    shiftLeft_or_eq_add _ _ 16 (by norm_num; omega),
    shiftLeft_or_eq_add _ _ 24 (by norm_num; omega)]
  norm_num
  omega

theorem byteLane_swap (p : Nat) :
    byteLane (swapRedBlueSpec p) 0 = byteLane p 2 ∧ byteLane (swapRedBlueSpec p) 2 = byteLane p 0 ∧
    byteLane (swapRedBlueSpec p) 1 = byteLane p 1 ∧ byteLane (swapRedBlueSpec p) 3 = byteLane p 3 ∧
    swapRedBlueSpec p < 4294967296 := by
  have h0 : byteLane p 0 < 256 := Nat.mod_lt _ (by norm_num)
  have h1 : byteLane p 1 < 256 := Nat.mod_lt _ (by norm_num)
  have h2 : byteLane p 2 < 256 := Nat.mod_lt _ (by norm_num)
  have h3 : byteLane p 3 < 256 := Nat.mod_lt _ (by norm_num)
  unfold swapRedBlueSpec
  generalize byteLane p 0 = b0 at *
  generalize byteLane p 1 = b1 at *
  generalize byteLane p 2 = b2 at *
  generalize byteLane p 3 = b3 at *
  unfold byteLane
  norm_num
  omega

end tda

/-! ## Keyboard: packing and the queue -/

namespace gkeyboard.GKeyboardDev

theorem keyevent_eq (a b c : Nat) (hb : b < 65536) :
    keyevent a b c = (c % 8) * 16777216 + (a % 256) * 65536 + b := by
  unfold keyevent
  rw [Nat.or_assoc, and_0x07, and_0xFF, shiftLeft_or_eq_add _ b 16 (by simpa using hb),
    shiftLeft_or_eq_add _ _ 24 (by norm_num; omega)]
  norm_num
  omega

/-- Unpacking, as `PULL_KEY` does it, of an event packed from in-range values. -/
theorem unpack_keyevent (a b c : Nat) (ha : a ≤ 0xFF) (hb : b ≤ 0xFFFF) (hc : c ≤ 7) :
    (keyevent a b c >>> 24) % 65536 = c ∧ (keyevent a b c &&& 0xFFFF) % 65536 = b ∧
      ((keyevent a b c >>> 16) &&& 0xFF) % 65536 = a := by
  rw [keyevent_eq a b c (by omega), and_0xFFFF, and_0xFF]
  simp only [Nat.shiftRight_eq_div_pow]
  norm_num
  omega

theorem pushKey_keybuffer (BSIZE : Nat) (s : GKeyboardDev) (abc : Nat × Nat × Nat)
    (h : s.keybuffer.length < BSIZE) :
    (pushKey BSIZE s abc).keybuffer = eventOf abc :: s.keybuffer := by
  simp [pushKey, SendCMD, h, eventOf]

theorem foldl_pushKey_keybuffer (BSIZE : Nat) (pushes : List (Nat × Nat × Nat)) :
    ∀ s : GKeyboardDev, s.keybuffer.length + pushes.length ≤ BSIZE →
      (pushes.foldl (pushKey BSIZE) s).keybuffer
        = (pushes.map eventOf).reverse ++ s.keybuffer := by
  induction pushes with
  | nil => intro s _; simp
  | cons t ts ih =>
    intro s h
    simp only [List.length_cons] at h
    have h1 : (pushKey BSIZE s t).keybuffer = eventOf t :: s.keybuffer :=
      pushKey_keybuffer BSIZE s t (by omega)
    rw [List.foldl_cons, ih _ (by rw [h1]; simp only [List.length_cons]; omega), h1]
    simp

theorem pullKeys_of_events (BSIZE : Nat) (l : List (Nat × Nat × Nat)) :
    ∀ (s : GKeyboardDev) (rest : List Nat), s.keybuffer = l.map eventOf ++ rest →
      (∀ t ∈ l, InRange t) →
      (pullKeys BSIZE l.length s).1 = l ∧ (pullKeys BSIZE l.length s).2.keybuffer = rest := by
  induction l with
  | nil => intro s rest h _; simpa [pullKeys] using h
  | cons t ts ih =>
    intro s rest h hr
    obtain ⟨ha, hb, hc⟩ := hr t (List.mem_cons_self _ _)
    obtain ⟨ua, ub, uc⟩ := unpack_keyevent t.1 t.2.1 t.2.2 ha hb hc
    have hs : (SendCMD BSIZE s 0x0001).keybuffer = ts.map eventOf ++ rest := by
      simp [SendCMD, h]
    have hregs : ((SendCMD BSIZE s 0x0001).a, (SendCMD BSIZE s 0x0001).b,
        (SendCMD BSIZE s 0x0001).c) = t := by
      simp only [SendCMD, h, List.map_cons, List.cons_append, eventOf]
      simp only [Nat.reduceEqDiff, ↓reduceIte, one_ne_zero]
      rw [ua, ub, uc]
    obtain ⟨i1, i2⟩ := ih _ rest hs (fun u hu => hr u (List.mem_cons_of_mem _ hu))
    simp only [List.length_cons, pullKeys]
    exact ⟨by rw [hregs, i1], i2⟩

theorem step_length_le (BSIZE : Nat) (s : GKeyboardDev) (op : Op)
    (h : s.keybuffer.length ≤ BSIZE) : (step BSIZE s op).keybuffer.length ≤ BSIZE := by
  cases op with
  | reset => simp [step, Reset]
  | writeRegs a b c => simpa [step] using h
  | iack => simpa [step, IACK] using h
  | sendCMD cmd =>
    simp only [step, SendCMD]
    split_ifs with h0 h1 h2 h3 h4
    · simp
    · cases hk : s.keybuffer with
      | nil => simp
      | cons ev rest =>
        rw [hk] at h
        simp only [List.length_cons] at h ⊢
        omega
    · simp only [List.length_cons]; omega
    · exact h
    · exact h
    · exact h

theorem run_length_le (BSIZE : Nat) (ops : List Op) :
    ∀ s : GKeyboardDev, s.keybuffer.length ≤ BSIZE →
      (run BSIZE ops s).keybuffer.length ≤ BSIZE := by
  unfold run
  induction ops with
  | nil => intro s h; exact h
  | cons op ops ih =>
    intro s h
    rw [List.foldl_cons]
    exact ih _ (step_length_le BSIZE s op h)

end gkeyboard.GKeyboardDev

/-! ## Snapshots: the raw image of the queue -/

theorem length_rawOfDWords (ws : List Nat) : (rawOfDWords ws).length = 4 * ws.length := by
  induction ws with
  | nil => rfl
  | cons w ws ih =>
    simp only [rawOfDWords, List.flatMap_cons, List.length_append, List.length_cons] at ih ⊢
    simp only [dwordBytes, List.length_cons, List.length_nil]
    omega

theorem readDWord_cons_zero (w : Nat) (rest : List Nat) (hw : w < 4294967296) :
    readDWord (dwordBytes w ++ rest) 0 = w := by
  simp only [readDWord, dwordBytes, List.cons_append, List.nil_append, Nat.mul_zero,
    Nat.zero_add, List.getD_cons_zero, List.getD_cons_succ]
  omega

theorem readDWord_cons_succ (w : Nat) (rest : List Nat) (i : Nat) :
    readDWord (dwordBytes w ++ rest) (i + 1) = readDWord rest i := by
  have e0 : 4 * (i + 1) = 4 * i + 3 + 1 := by omega
  have e1 : 4 * (i + 1) + 1 = 4 * i + 1 + 3 + 1 := by omega
  have e2 : 4 * (i + 1) + 2 = 4 * i + 2 + 3 + 1 := by omega
  have e3 : 4 * (i + 1) + 3 = 4 * i + 3 + 3 + 1 := by omega
  simp only [readDWord, dwordBytes, List.cons_append, List.nil_append]
  rw [e3, e2, e1, e0]
  simp only [List.getD_cons_succ]

/-- Reading back every `DWord` of the raw image of a `DWord` array. -/
theorem map_readDWord_rawOfDWords (ws : List Nat) (hw : ∀ w ∈ ws, w < 4294967296) :
    (List.range ((rawOfDWords ws).length / 4)).map (readDWord (rawOfDWords ws)) = ws := by
  rw [length_rawOfDWords, Nat.mul_div_cancel_left _ (by decide : 0 < 4)]
  induction ws with
  | nil => rfl
  | cons w ws ih =>
    have hws : ∀ v ∈ ws, v < 4294967296 := fun v hv => hw v (List.mem_cons_of_mem _ hv)
    rw [List.length_cons, List.range_succ_eq_map, List.map_cons, List.map_map]
    have hraw : rawOfDWords (w :: ws) = dwordBytes w ++ rawOfDWords ws := by
      simp [rawOfDWords]
    rw [hraw, readDWord_cons_zero w _ (hw w (List.mem_cons_self _ _))]
    congr 1
    refine Eq.trans ?_ (ih hws)
    apply List.map_congr_left
    intro i _
    exact readDWord_cons_succ w _ i

namespace gkeyboard.GKeyboardDev

theorem foldl_push_back (raw : List Nat) (l : List Nat) :
    ∀ s : GKeyboardDev,
      l.foldl (fun s i => { s with keybuffer := s.keybuffer ++ [readDWord raw i] }) s
        = { s with keybuffer := s.keybuffer ++ l.map (readDWord raw) } := by
  induction l with
  | nil => intro s; simp
  | cons i l ih => intro s; rw [List.foldl_cons, ih]; simp

theorem applyProperty_length (s : GKeyboardDev) (prop : DeviceProperty) :
    (applyProperty s prop).keybuffer.length
      = s.keybuffer.length + snapshotWords [prop] := by
  unfold applyProperty snapshotWords
  by_cases h1 : prop.name = "int_msg"
  · have h3 : prop.name ≠ "keybuffer" := by rw [h1]; decide
    simp [h1, h3]
  · by_cases h2 : prop.name = "do_int"
    · have h3 : prop.name ≠ "keybuffer" := by rw [h2]; decide
      simp [h2, h3]
    · by_cases h3 : prop.name = "keybuffer"
      · simp [h3, foldl_push_back]
      · simp [h1, h2, h3]

theorem foldl_applyProperty_length (props : List DeviceProperty) :
    ∀ s : GKeyboardDev, (props.foldl applyProperty s).keybuffer.length
      = s.keybuffer.length + snapshotWords props := by
  induction props with
  | nil => intro s; simp [snapshotWords]
  | cons q qs ih =>
    intro s
    rw [List.foldl_cons, ih, applyProperty_length]
    simp only [snapshotWords, List.filter_cons]
    split_ifs
    · simp only [List.map_cons, List.sum_cons, List.filter_nil, List.map_nil, List.sum_nil]
      omega
    · simp only [List.filter_nil, List.map_nil, List.sum_nil]
      omega

theorem setState_length (Device_SetState : DeviceState → Bool) (s : GKeyboardDev)
    (inp : DeviceState) (hok : (SetState Device_SetState s inp).1 = true) :
    (SetState Device_SetState s inp).2.keybuffer.length = snapshotWords inp.properties := by
  unfold SetState at hok ⊢
  cases hD : Device_SetState inp
  · rw [hD] at hok; simp at hok
  · simp only [Bool.not_true, Bool.false_eq_true, if_false]
    rw [foldl_applyProperty_length]
    simp

end gkeyboard.GKeyboardDev

/-! ## Loops that store into a buffer -/

/-- A loop none of whose turns stores at `p` leaves the value at `p`. -/
theorem foldl_range_untouched {α : Type} (step : (Nat → α) → Nat → (Nat → α)) (p n : Nat)
    (miss : ∀ t k, k < n → step t k p = t p) (t : Nat → α) :
    ((List.range n).foldl step t) p = t p := by
  induction n with
  | zero => rfl
  | succ n ih =>
    rw [List.range_succ, List.foldl_append, List.foldl_cons, List.foldl_nil,
      miss _ n (Nat.lt_succ_self n)]
    exact ih (fun t k hk => miss t k (Nat.lt_succ_of_lt hk))

/-- A loop exactly one of whose turns stores at `p` leaves there what that
turn stored. -/
theorem foldl_range_stored {α : Type} (step : (Nat → α) → Nat → (Nat → α)) (p n k0 : Nat)
    (v : α) (hk : k0 < n) (hit : ∀ t, step t k0 p = v)
    (miss : ∀ t k, k < n → k ≠ k0 → step t k p = t p) (t : Nat → α) :
    ((List.range n).foldl step t) p = v := by
  induction n with
  | zero => omega
  | succ n ih =>
    rw [List.range_succ, List.foldl_append, List.foldl_cons, List.foldl_nil]
    by_cases h : k0 = n
    · subst h
      exact hit _
    · rw [miss _ n (Nat.lt_succ_self n) (fun e => h e.symm)]
      exact ih (by omega) (fun t k hk hne => miss t k (Nat.lt_succ_of_lt hk) hne)

/-- A loop that rewrites every cell below `n` in place. -/
theorem foldl_range_map {α : Type} (g : α → α) (n p : Nat) (t : Nat → α) :
    ((List.range n).foldl (fun t i => Function.update t i (g (t i))) t) p
      = if p < n then g (t p) else t p := by
  induction n with
  | zero => simp
  | succ n ih =>
    rw [List.range_succ, List.foldl_append, List.foldl_cons, List.foldl_nil]
    by_cases h : p = n
    · subst h
      rw [Function.update_same, if_pos (Nat.lt_succ_self _)]
      rw [foldl_range_untouched _ p p
        (fun t k hk => Function.update_noteq (by omega) _ _)]
    · rw [Function.update_noteq h, ih]
      by_cases h2 : p < n
      · rw [if_pos h2, if_pos (by omega)]
      · rw [if_neg h2, if_neg (by omega)]

/-! ## Rasterizer: text pass, cursor pass and frame counter -/

namespace tda

/-- A cell that does not cover `p` leaves the pixel `p`. -/
theorem paintCell_untouched (PALETTE font : Nat → Nat) (screen : TDAScreen)
    (row col p : Nat) (texture : Nat → Nat)
    (hp : ∀ x y, x < 8 → y < 8 → p ≠ x + col * 8 + (40 * 8 * (y + row * 8))) :
    paintCell PALETTE font screen row col texture p = texture p := by
  unfold paintCell
  apply foldl_range_untouched
  intro t y hy
  apply foldl_range_untouched
  intro t x hx
  have := hp x y hx hy
  split_ifs <;> exact Function.update_noteq this _ _

/-- The pixel `(x, y)` of the cell `(row, col)` after that cell is painted. -/
theorem paintCell_pixel (PALETTE font : Nat → Nat) (screen : TDAScreen)
    (row col x y : Nat) (texture : Nat → Nat) (hx : x < 8) (hy : y < 8) :
    paintCell PALETTE font screen row col texture (x + col * 8 + (40 * 8 * (y + row * 8)))
      = if (font (screen.txt_buffer (col + (WIDTH_CHARS * row)) % 256 * 8 + y)
            &&& (1 <<< (7 - x))) ≠ 0
        then PALETTE ((screen.txt_buffer (col + (WIDTH_CHARS * row)) >>> 8) &&& 0x0F)
        else PALETTE ((screen.txt_buffer (col + (WIDTH_CHARS * row)) >>> 12) &&& 0x0F) := by
  unfold paintCell
  apply foldl_range_stored _ _ 8 y _ hy
  · intro t
    apply foldl_range_stored _ _ 8 x _ hx
    · intro t
      split_ifs <;> exact Function.update_same _ _ _
    · intro t k hk hne
      have : x + col * 8 + (40 * 8 * (y + row * 8)) ≠ k + col * 8 + (40 * 8 * (y + row * 8)) := by
        omega
      split_ifs <;> exact Function.update_noteq this _ _
  · intro t k hk hne
    apply foldl_range_untouched
    intro t j hj
    have : x + col * 8 + (40 * 8 * (y + row * 8)) ≠ j + col * 8 + (40 * 8 * (k + row * 8)) := by
      omega
    split_ifs <;> exact Function.update_noteq this _ _

/-- The text pass: the pixel `(x, y)` of the cell `(row, col)`. -/
theorem paintText_pixel (PALETTE font : Nat → Nat) (screen : TDAScreen)
    (row col x y : Nat) (texture : Nat → Nat) (hr : row < 30) (hc : col < 40)
    (hx : x < 8) (hy : y < 8) :
    paintText PALETTE font screen texture (x + col * 8 + (40 * 8 * (y + row * 8)))
      = if (font (screen.txt_buffer (col + (WIDTH_CHARS * row)) % 256 * 8 + y)
            &&& (1 <<< (7 - x))) ≠ 0
        then PALETTE ((screen.txt_buffer (col + (WIDTH_CHARS * row)) >>> 8) &&& 0x0F)
        else PALETTE ((screen.txt_buffer (col + (WIDTH_CHARS * row)) >>> 12) &&& 0x0F) := by
  unfold paintText
  apply foldl_range_stored _ _ HEIGHT_CHARS row _ hr
  · intro t
    apply foldl_range_stored _ _ WIDTH_CHARS col _ hc
    · intro t
      exact paintCell_pixel PALETTE font screen row col x y t hx hy
    · intro t k hk hne
      apply paintCell_untouched
      intro x1 y1 hx1 hy1
      simp only [WIDTH_CHARS] at hk
      omega
  · intro t k hk hne
    apply foldl_range_untouched
    intro t j hj
    apply paintCell_untouched
    intro x1 y1 hx1 hy1
    simp only [WIDTH_CHARS, HEIGHT_CHARS] at hk hj
    omega

/-- Inside the 40 by 30 cells the text pass does not depend on what the
buffer held before. -/
theorem paintText_pixel_indep (PALETTE font : Nat → Nat) (screen : TDAScreen)
    (row col x y : Nat) (t1 t2 : Nat → Nat) (hr : row < 30) (hc : col < 40)
    (hx : x < 8) (hy : y < 8) :
    paintText PALETTE font screen t1 (x + col * 8 + (40 * 8 * (y + row * 8)))
      = paintText PALETTE font screen t2 (x + col * 8 + (40 * 8 * (y + row * 8))) := by
  rw [paintText_pixel _ _ _ _ _ _ _ t1 hr hc hx hy, paintText_pixel _ _ _ _ _ _ _ t2 hr hc hx hy]

/-- The cursor loops store the cursor colour at every pixel of the cursor
rectangle. -/
theorem paintCursor_pixel (screen : TDAScreen) (row col color x y : Nat)
    (texture : Nat → Nat) (hx : x < 8) (h1 : screen.cur_start ≤ y) (h2 : y ≤ screen.cur_end) :
    paintCursor screen row col color texture (x + col * 8 + (40 * 8 * (y + row * 8)))
      = color := by
  have e : screen.cur_start + (y - screen.cur_start) = y := by omega
  unfold paintCursor
  rw [List.range'_eq_map_range, List.foldl_map]
  apply foldl_range_stored _ _ _ (y - screen.cur_start) _ (by omega)
  · intro t
    simp only [e]
    apply foldl_range_stored _ _ 8 x _ hx
    · intro t
      exact Function.update_same _ _ _
    · intro t k hk hne
      exact Function.update_noteq (by omega) _ _
  · intro t k hk hne
    apply foldl_range_untouched
    intro t j hj
    exact Function.update_noteq (by omega) _ _

/-- The frame counter that one call leaves when the cursor is enabled. -/
theorem TDAtoRGBATexture_frames (PALETTE ROM_FONT : Nat → Nat) (screen : TDAScreen)
    (texture : Nat → Nat) (frames : Nat) (hc : screen.cursor = true) :
    (TDAtoRGBATexture PALETTE ROM_FONT screen texture frames).2
      = if frames < 8 then (frames + 1) % 4294967296
        else if (frames + 1) % 4294967296 < 16 then ((frames + 1) % 4294967296 + 1) % 4294967296
        else 0 := by
  unfold TDAtoRGBATexture
  simp only [hc, if_true]
  split_ifs <;> rfl

/-- The counter before call `k` of a run that starts at 0. -/
theorem renderCalls_frames (PALETTE ROM_FONT : Nat → Nat) (screen : TDAScreen)
    (texture : Nat → Nat) (hc : screen.cursor = true) (k : Nat) :
    (renderCalls PALETTE ROM_FONT screen k (texture, 0)).2 = blinkFrames k := by
  induction k with
  | zero => rfl
  | succ k ih =>
    simp only [renderCalls]
    rw [TDAtoRGBATexture_frames _ _ _ _ _ hc, ih]
    unfold blinkFrames
    split_ifs <;> omega

end tda

/-! ## Device commands and property loops: what they leave alone -/

/-- A property loop keeps what each of its turns keeps. -/
theorem foldl_keeps {σ β : Type} (f : σ → DeviceProperty → σ) (proj : σ → β)
    (ok : DeviceProperty → Prop) (h : ∀ s p, ok p → proj (f s p) = proj s)
    (props : List DeviceProperty) :
    ∀ s : σ, (∀ p ∈ props, ok p) → proj (props.foldl f s) = proj s := by
  induction props with
  | nil => intro s _; rfl
  | cons q qs ih =>
    intro s hq
    rw [List.foldl_cons, ih _ (fun p hp => hq p (List.mem_cons_of_mem _ hp)),
      h s q (hq q (List.mem_cons_self _ _))]

namespace gkeyboard.GKeyboardDev

theorem applyProperty_int_msg (s : GKeyboardDev) (p : DeviceProperty)
    (h : p.name ≠ "int_msg") : (applyProperty s p).int_msg = s.int_msg := by
  unfold applyProperty
  rw [if_neg h]
  split_ifs
  · rfl
  · rw [foldl_push_back]
  · rfl

theorem applyProperty_do_int (s : GKeyboardDev) (p : DeviceProperty)
    (h : p.name ≠ "do_int") : (applyProperty s p).do_int = s.do_int := by
  unfold applyProperty
  split_ifs
  · rfl
  · rw [foldl_push_back]
  · rfl

theorem applyProperty_keybuffer (s : GKeyboardDev) (p : DeviceProperty)
    (h : p.name ≠ "keybuffer") : (applyProperty s p).keybuffer = s.keybuffer := by
  unfold applyProperty
  split_ifs <;> rfl

theorem applyProperty_regs (s : GKeyboardDev) (p : DeviceProperty) :
    (applyProperty s p).a = s.a ∧ (applyProperty s p).b = s.b ∧
      (applyProperty s p).c = s.c := by
  unfold applyProperty
  split_ifs
  · exact ⟨rfl, rfl, rfl⟩
  · exact ⟨rfl, rfl, rfl⟩
  · rw [foldl_push_back]; exact ⟨rfl, rfl, rfl⟩
  · exact ⟨rfl, rfl, rfl⟩

/-- The events that `PUSH_KEY` builds fit in 27 bits. -/
theorem keyevent_lt (a b c : Nat) (hb : b < 65536) : keyevent a b c < 134217728 := by
  rw [keyevent_eq a b c hb]
  omega

/-- The invariant of the reachable states: `b` is a `Word` and every queued
event fits in 27 bits. -/
theorem step_keeps_events (BSIZE : Nat) (s : GKeyboardDev) (op : Op)
    (h : s.b < 65536 ∧ ∀ ev ∈ s.keybuffer, ev < 134217728) :
    (step BSIZE s op).b < 65536 ∧ ∀ ev ∈ (step BSIZE s op).keybuffer, ev < 134217728 := by
  obtain ⟨hb, hq⟩ := h
  cases op with
  | reset => simp [step, Reset]
  | writeRegs a b c => exact ⟨Nat.mod_lt _ (by norm_num), hq⟩
  | iack => exact ⟨hb, hq⟩
  | sendCMD cmd =>
    simp only [step, SendCMD]
    split_ifs with h0 h1 h2 h3 h4
    · exact ⟨hb, by simp⟩
    · cases hk : s.keybuffer with
      | nil => simp
      | cons ev rest =>
        rw [hk] at hq
        exact ⟨Nat.mod_lt _ (by norm_num), fun e he => hq e (List.mem_cons_of_mem _ he)⟩
    · refine ⟨hb, ?_⟩
      intro e he
      rcases List.mem_cons.mp he with rfl | he'
      · exact keyevent_lt _ _ _ hb
      · exact hq e he'
    · exact ⟨hb, hq⟩
    · exact ⟨hb, hq⟩
    · exact ⟨hb, hq⟩

theorem run_keeps_events (BSIZE : Nat) (ops : List Op) :
    ∀ s : GKeyboardDev, (s.b < 65536 ∧ ∀ ev ∈ s.keybuffer, ev < 134217728) →
      (run BSIZE ops s).b < 65536 ∧ ∀ ev ∈ (run BSIZE ops s).keybuffer, ev < 134217728 := by
  unfold run
  induction ops with
  | nil => intro s h; exact h
  | cons op ops ih =>
    intro s h
    rw [List.foldl_cons]
    exact ih _ (step_keeps_events BSIZE s op h)

/-- What `PULL_KEY` leaves in `c` and `a` when the queued events fit in 27 bits. -/
theorem pull_regs_le (BSIZE : Nat) (s : GKeyboardDev)
    (hq : ∀ ev ∈ s.keybuffer, ev < 134217728) :
    (SendCMD BSIZE s 0x0001).c ≤ 7 ∧ (SendCMD BSIZE s 0x0001).a ≤ 0xFF := by
  simp only [SendCMD]
  simp only [Nat.reduceEqDiff, ↓reduceIte, one_ne_zero]
  cases hk : s.keybuffer with
  | nil => simp
  | cons ev rest =>
    have hev : ev < 134217728 := hq ev (by rw [hk]; exact List.mem_cons_self _ _)
    simp only [and_0xFF, Nat.shiftRight_eq_div_pow]
    norm_num
    omega

end gkeyboard.GKeyboardDev

namespace tda.TDADev

theorem applyProperty_frame (s : TDADev) (p : DeviceProperty) :
    (p.name ≠ "vsync_msg" → (applyProperty s p).vsync_msg = s.vsync_msg) ∧
    (p.name ≠ "do_vsync" → (applyProperty s p).do_vsync = s.do_vsync) ∧
    (p.name ≠ "cursor" → (applyProperty s p).cursor = s.cursor) ∧
    (p.name ≠ "blink" → (applyProperty s p).blink = s.blink) ∧
    ((p.name ≠ "buffer_ptr" ∧ p.name ≠ "font_ptr") →
      (applyProperty s p).buffer_ptr = s.buffer_ptr) ∧
    (applyProperty s p).font_ptr = s.font_ptr := by
  unfold applyProperty
  split_ifs <;> simp_all

end tda.TDADev

/-! ## Rasterizer: every pixel, the cursor rectangle and the access log -/

/-- The test `pixels & (1 << k)` of the glyph loop reads bit `k`. -/
theorem and_shiftLeft_one_ne_zero (p k : Nat) :
    (p &&& (1 <<< k)) ≠ 0 ↔ p.testBit k = true := by
  rw [Nat.shiftLeft_eq, Nat.one_mul]
  constructor
  · intro h
    by_contra hb
    apply h
    apply Nat.eq_of_testBit_eq
    intro i
    rw [Nat.testBit_and, Nat.testBit_two_pow, Nat.zero_testBit]
    by_cases hi : k = i
    · subst hi; simp [hb]
    · simp [hi]
  · intro hb h
    have := congrArg (fun n => n.testBit k) h
    simp [Nat.testBit_and, Nat.testBit_two_pow_self, hb] at this

/-- A loop whose turns treat two buffers alike at `p` keeps them alike at `p`. -/
theorem foldl_congr_at {α κ : Type} (step : (Nat → α) → κ → (Nat → α)) (p : Nat)
    (h : ∀ t1 t2 k, t1 p = t2 p → step t1 k p = step t2 k p) (l : List κ) :
    ∀ t1 t2 : Nat → α, t1 p = t2 p → (l.foldl step t1) p = (l.foldl step t2) p := by
  induction l with
  | nil => intro t1 t2 h12; exact h12
  | cons k l ih => intro t1 t2 h12; exact ih _ _ (h t1 t2 k h12)

theorem foldl_flatMap {α β γ : Type} (f : γ → β → γ) (g : α → List β) (l : List α) :
    ∀ c : γ, (l.flatMap g).foldl f c = l.foldl (fun c a => (g a).foldl f c) c := by
  induction l with
  | nil => intro c; rfl
  | cons a l ih => intro c; rw [List.flatMap_cons, List.foldl_append, ih, List.foldl_cons]

namespace tda

/-- Every pixel index below `320 * 240` is the pixel `(x, y)` of a cell. -/
theorem pixel_decompose (i : Nat) (hi : i < 320 * 240) :
    ∃ row col x y, row < 30 ∧ col < 40 ∧ x < 8 ∧ y < 8 ∧
      i = x + col * 8 + (40 * 8 * (y + row * 8)) := by
  refine ⟨i / 2560, i % 320 / 8, i % 8, i / 320 % 8, ?_, ?_, ?_, ?_, ?_⟩ <;> omega

/-- The text pass reads the screen only through its text buffer. -/
theorem paintText_congr_screen (PALETTE font : Nat → Nat) (s1 s2 : TDAScreen)
    (h : s1.txt_buffer = s2.txt_buffer) (texture : Nat → Nat) :
    paintText PALETTE font s1 texture = paintText PALETTE font s2 texture := by
  unfold paintText paintCell
  simp only [h]

/-- The cursor loops leave every pixel outside the cursor rectangle. -/
theorem paintCursor_untouched (screen : TDAScreen) (row col color p : Nat)
    (texture : Nat → Nat)
    (hp : ∀ x y, x < 8 → screen.cur_start ≤ y → y ≤ screen.cur_end →
      p ≠ x + col * 8 + (40 * 8 * (y + row * 8))) :
    paintCursor screen row col color texture p = texture p := by
  unfold paintCursor
  rw [List.range'_eq_map_range, List.foldl_map]
  apply foldl_range_untouched
  intro t k hk
  apply foldl_range_untouched
  intro t x hx
  exact Function.update_noteq (hp x (screen.cur_start + k) hx (by omega) (by omega)) _ _

/-- The cursor loops treat two buffers alike at every pixel. -/
theorem paintCursor_congr (screen : TDAScreen) (row col color p : Nat)
    (t1 t2 : Nat → Nat) (h : t1 p = t2 p) :
    paintCursor screen row col color t1 p = paintCursor screen row col color t2 p := by
  unfold paintCursor
  apply foldl_congr_at _ _ _ _ _ _ h
  intro u1 u2 y hu
  apply foldl_congr_at _ _ _ _ _ _ hu
  intro v1 v2 x hv
  by_cases hpx : p = x + col * 8 + (40 * 8 * (y + row * 8))
  · rw [hpx, Function.update_same, Function.update_same]
  · rw [Function.update_noteq hpx, Function.update_noteq hpx, hv]

/-- The texture that one call leaves: the text pass, overlaid by the cursor
loops when the cursor is enabled, the counter is below 8, the scan lines
are in order and the cursor cell is on the screen. -/
theorem TDAtoRGBATexture_texture (PALETTE ROM_FONT : Nat → Nat) (screen : TDAScreen)
    (texture : Nat → Nat) (frames : Nat) :
    (TDAtoRGBATexture PALETTE ROM_FONT screen texture frames).1
      = if screen.cursor = true ∧ frames < 8 ∧ screen.cur_start ≤ screen.cur_end ∧
            (screen.cur_row % 256 < 30 ∧ screen.cur_col % 256 < 40)
        then paintCursor screen (screen.cur_row % 256) (screen.cur_col % 256)
          (PALETTE screen.cur_color)
          (paintText PALETTE (if screen.user_font then screen.font_buffer else ROM_FONT)
            screen texture)
        else paintText PALETTE (if screen.user_font then screen.font_buffer else ROM_FONT)
          screen texture := by
  unfold TDAtoRGBATexture
  by_cases h1 : screen.cursor = true
  · by_cases h2 : frames < 8
    · by_cases h3 : screen.cur_start ≤ screen.cur_end
      · by_cases h4 : screen.cur_row % 256 < 30 ∧ screen.cur_col % 256 < 40
        · simp only [h1, h2, h3, h4, if_true, and_self]
        · simp only [h1, h2, h3, h4, if_true, if_false, and_false, true_and]
      · simp only [h1, h2, h3, if_true, if_false, and_false, false_and, true_and]
    · by_cases h5 : (frames + 1) % 4294967296 < 16
      · simp only [h1, h2, h5, if_true, if_false, and_false, false_and, true_and]
      · simp only [h1, h2, h5, if_true, if_false, and_false, false_and, true_and]
  · simp only [h1, if_false, false_and, Bool.false_eq_true]

/-- One call overwrites every pixel: below `320 * 240` its output does not
depend on what the buffer held. -/
theorem TDAtoRGBATexture_indep (PALETTE ROM_FONT : Nat → Nat) (screen : TDAScreen)
    (t1 t2 : Nat → Nat) (frames i : Nat) (hi : i < 320 * 240) :
    (TDAtoRGBATexture PALETTE ROM_FONT screen t1 frames).1 i
      = (TDAtoRGBATexture PALETTE ROM_FONT screen t2 frames).1 i := by
  obtain ⟨row, col, x, y, hr, hc, hx, hy, rfl⟩ := pixel_decompose i hi
  have ht := paintText_pixel_indep PALETTE
    (if screen.user_font then screen.font_buffer else ROM_FONT) screen row col x y t1 t2
    hr hc hx hy
  rw [TDAtoRGBATexture_texture, TDAtoRGBATexture_texture]
  by_cases hcond : screen.cursor = true ∧ frames < 8 ∧ screen.cur_start ≤ screen.cur_end ∧
      (screen.cur_row % 256 < 30 ∧ screen.cur_col % 256 < 40)
  · rw [if_pos hcond, if_pos hcond]
    exact paintCursor_congr _ _ _ _ _ _ _ ht
  · rw [if_neg hcond, if_neg hcond]
    exact ht

/-- The output with the cursor disabled is the text pass. -/
theorem TDAtoRGBATexture_cursor_off (PALETTE ROM_FONT : Nat → Nat) (screen : TDAScreen)
    (texture : Nat → Nat) (frames : Nat) :
    (TDAtoRGBATexture PALETTE ROM_FONT { screen with cursor := false } texture frames).1
      = paintText PALETTE (if screen.user_font then screen.font_buffer else ROM_FONT)
          screen texture := by
  rw [TDAtoRGBATexture_texture, if_neg (by simp)]
  exact paintText_congr_screen _ _ _ _ rfl _

/-- The text pass in the words of the specification. -/
theorem paintText_eq_spec (PALETTE ROM_FONT : Nat → Nat) (screen : TDAScreen)
    (row col x y : Nat) (texture : Nat → Nat) (hr : row < 30) (hc : col < 40)
    (hx : x < 8) (hy : y < 8) :
    paintText PALETTE (if screen.user_font then screen.font_buffer else ROM_FONT) screen
        texture (x + col * 8 + 320 * (y + row * 8))
      = textPixelSpec PALETTE ROM_FONT screen row col x y := by
  have e : x + col * 8 + 320 * (y + row * 8) = x + col * 8 + (40 * 8 * (y + row * 8)) := by
    omega
  rw [e, paintText_pixel _ _ _ _ _ _ _ _ hr hc hx hy]
  unfold textPixelSpec
  simp only [WIDTH_CHARS, and_0xFF, and_shiftLeft_one_ne_zero, Nat.mul_comm 8]

end tda

namespace tda

/-- The counter that one call leaves. -/
theorem TDAtoRGBATexture_counter (PALETTE ROM_FONT : Nat → Nat) (screen : TDAScreen)
    (texture : Nat → Nat) (frames : Nat) :
    (TDAtoRGBATexture PALETTE ROM_FONT screen texture frames).2
      = if screen.cursor = true then
          if frames < 8 then (frames + 1) % 4294967296
          else if (frames + 1) % 4294967296 < 16 then
            ((frames + 1) % 4294967296 + 1) % 4294967296
          else 0
        else frames := by
  by_cases hc : screen.cursor = true
  · rw [TDAtoRGBATexture_frames _ _ _ _ _ hc, if_pos hc]
  · unfold TDAtoRGBATexture
    simp only [hc, if_false, Bool.false_eq_true]

theorem replay_append (l1 l2 : List Access) (texture : Nat → Nat) :
    replay (l1 ++ l2) texture = replay l2 (replay l1 texture) :=
  List.foldl_append _ _ _ _

theorem replay_cons (a : Access) (l : List Access) (texture : Nat → Nat) :
    replay (a :: l) texture = replay l (Access.apply texture a) :=
  rfl

theorem replay_nil (texture : Nat → Nat) : replay [] texture = texture :=
  rfl

/-- Replaying the logged accesses of a cell paints the cell. -/
theorem replay_paintCellLog (PALETTE font : Nat → Nat) (screen : TDAScreen)
    (row col : Nat) (texture : Nat → Nat) :
    replay (paintCellLog PALETTE font screen row col) texture
      = paintCell PALETTE font screen row col texture := by
  unfold replay paintCellLog paintCell
  simp only [List.foldl_append, List.foldl_cons, List.foldl_nil, Access.apply, foldl_flatMap]
  congr 1
  funext t y
  congr 1
  funext t x
  split_ifs <;> rfl

/-- Replaying the logged accesses of the text pass gives the text pass. -/
theorem replay_paintTextLog (PALETTE font : Nat → Nat) (screen : TDAScreen)
    (texture : Nat → Nat) :
    replay (paintTextLog PALETTE font screen) texture
      = paintText PALETTE font screen texture := by
  have h := replay_paintCellLog PALETTE font screen
  unfold replay at h
  unfold replay paintTextLog paintText
  simp only [foldl_flatMap, h]

/-- Replaying the logged stores of the cursor loops paints the cursor. -/
theorem replay_paintCursorLog (screen : TDAScreen) (row col color : Nat)
    (texture : Nat → Nat) :
    replay (paintCursorLog screen row col color) texture
      = paintCursor screen row col color texture := by
  unfold replay paintCursorLog paintCursor
  simp only [foldl_flatMap, List.foldl_cons, List.foldl_nil, Access.apply]

/-- The accesses of a cell on the screen are in bounds. -/
theorem paintCellLog_inBounds (PALETTE font : Nat → Nat) (screen : TDAScreen)
    (row col : Nat) (hr : row < 30) (hc : col < 40) :
    ∀ a ∈ paintCellLog PALETTE font screen row col, a.InBounds := by
  intro a ha
  simp only [paintCellLog, List.mem_append, List.mem_cons, List.mem_flatMap, List.mem_range,
    List.not_mem_nil, or_false] at ha
  rcases ha with (rfl | rfl | rfl) | ⟨y, hy, rfl | ⟨x, hx, hmem⟩⟩
  · simp only [Access.InBounds, WIDTH_CHARS]; omega
  · simp only [Access.InBounds, WIDTH_CHARS]; omega
  · simp only [Access.InBounds, WIDTH_CHARS]; omega
  · simp only [Access.InBounds]; omega
  · split_ifs at hmem
    · simp only [List.mem_cons, List.not_mem_nil, or_false] at hmem
      rcases hmem with rfl | rfl
      · simp only [Access.InBounds, and_0x0F]; omega
      · simp only [Access.InBounds]; omega
    · simp only [List.mem_cons, List.not_mem_nil, or_false] at hmem
      rcases hmem with rfl | rfl
      · simp only [Access.InBounds, and_0x0F]; omega
      · simp only [Access.InBounds]; omega

/-- The stores of the cursor loops are in bounds when the cursor cell is on
the screen and the last scan line is at most 7. -/
theorem paintCursorLog_inBounds (screen : TDAScreen) (row col color : Nat)
    (hr : row < 30) (hc : col < 40) (he : screen.cur_end ≤ 7) :
    ∀ a ∈ paintCursorLog screen row col color, a.InBounds := by
  intro a ha
  simp only [paintCursorLog, List.mem_flatMap, List.mem_range, List.mem_range',
    List.mem_cons, List.not_mem_nil, or_false] at ha
  obtain ⟨y, ⟨k, hk, rfl⟩, x, hx, rfl⟩ := ha
  simp only [Access.InBounds]
  omega

theorem apply_palette (texture : Nat → Nat) (i : Nat) :
    Access.apply texture (Access.palette i) = texture :=
  rfl

/-- Replaying the logged accesses of one call gives the texture the call
leaves. -/
theorem replay_TDAtoRGBATextureLog (PALETTE ROM_FONT : Nat → Nat) (screen : TDAScreen)
    (texture : Nat → Nat) (frames : Nat) :
    replay (TDAtoRGBATextureLog PALETTE ROM_FONT screen frames) texture
      = (TDAtoRGBATexture PALETTE ROM_FONT screen texture frames).1 := by
  rw [TDAtoRGBATexture_texture]
  simp only [TDAtoRGBATextureLog]
  rw [replay_append, replay_paintTextLog]
  generalize paintText PALETTE (if screen.user_font = true then screen.font_buffer else ROM_FONT)
    screen texture = painted
  by_cases h1 : screen.cursor = true
  · by_cases h2 : frames < 8
    · by_cases h3 : screen.cur_start ≤ screen.cur_end
      · by_cases h4 : screen.cur_row % 256 < 30 ∧ screen.cur_col % 256 < 40
        · rw [if_pos h1, if_pos h2, if_pos h3, if_pos h4, if_pos ⟨h1, h2, h3, h4⟩,
            replay_cons, apply_palette, replay_paintCursorLog]
        · have hn : ¬ (screen.cursor = true ∧ frames < 8 ∧
              screen.cur_start ≤ screen.cur_end ∧
              (screen.cur_row % 256 < 30 ∧ screen.cur_col % 256 < 40)) := fun h => h4 h.2.2.2
          rw [if_pos h1, if_pos h2, if_pos h3, if_neg h4, if_neg hn,
            replay_cons, apply_palette, replay_nil]
      · have hn : ¬ (screen.cursor = true ∧ frames < 8 ∧
            screen.cur_start ≤ screen.cur_end ∧
            (screen.cur_row % 256 < 30 ∧ screen.cur_col % 256 < 40)) := fun h => h3 h.2.2.1
        rw [if_pos h1, if_pos h2, if_neg h3, if_neg hn, replay_nil]
    · have hn : ¬ (screen.cursor = true ∧ frames < 8 ∧
          screen.cur_start ≤ screen.cur_end ∧
          (screen.cur_row % 256 < 30 ∧ screen.cur_col % 256 < 40)) := fun h => h2 h.2.1
      rw [if_pos h1, if_neg h2, if_neg hn, replay_nil]
  · have hn : ¬ (screen.cursor = true ∧ frames < 8 ∧
        screen.cur_start ≤ screen.cur_end ∧
        (screen.cur_row % 256 < 30 ∧ screen.cur_col % 256 < 40)) := fun h => h1 h.1
    rw [if_neg h1, if_neg hn, replay_nil]

end tda

/-! ## The claims -/

namespace gkeyboard.GKeyboardDev

/-- C1 (as the code has it): from an empty queue, `n ≤ BSIZE` pushes of
in-range register triples followed by `n` pulls return the triples in the
reverse of the push order: pull `i` returns the triple of push `n - 1 - i`. -/
theorem pulls_return_pushes_reversed (BSIZE : Nat) (s0 : GKeyboardDev)
    (pushes : List (Nat × Nat × Nat)) (h0 : s0.keybuffer = [])
    (hn : pushes.length ≤ BSIZE) (hr : ∀ t ∈ pushes, InRange t) :
    (pullKeys BSIZE pushes.length (pushes.foldl (pushKey BSIZE) s0)).1 = pushes.reverse ∧
    (∀ i, i < pushes.length →
      (pullKeys BSIZE pushes.length (pushes.foldl (pushKey BSIZE) s0)).1[i]?
        = pushes[pushes.length - 1 - i]?) ∧
    (pullKeys BSIZE pushes.length (pushes.foldl (pushKey BSIZE) s0)).2.keybuffer = [] := by
  have hk := foldl_pushKey_keybuffer BSIZE pushes s0 (by rw [h0]; simpa using hn)
  rw [h0, ← List.map_reverse] at hk
  have hp := pullKeys_of_events BSIZE pushes.reverse _ [] hk
    (fun t ht => hr t (List.mem_reverse.mp ht))
  rw [List.length_reverse] at hp
  refine ⟨hp.1, ?_, hp.2⟩
  intro i hi
  rw [hp.1, List.getElem?_reverse hi]

theorem pulls_return_pushes_reversed_witness :
    fresh.keybuffer = [] ∧ [(0x41, 0x1E, 2), (0x42, 0x30, 0)].length ≤ 64 ∧
    (∀ t ∈ [(0x41, 0x1E, 2), (0x42, 0x30, 0)], InRange t) ∧
    (pullKeys 64 2 ([(0x41, 0x1E, 2), (0x42, 0x30, 0)].foldl (pushKey 64) fresh)).1
      = [(0x42, 0x30, 0), (0x41, 0x1E, 2)] :=
  ⟨rfl, by decide, by decide,
    (pulls_return_pushes_reversed 64 fresh [(0x41, 0x1E, 2), (0x42, 0x30, 0)] rfl
      (by decide) (by decide)).1⟩

/-- C1 (as stated) fails: with capacity 64, after the pushes `(1,1,1)` then
`(2,2,2)` the first pull returns `(2,2,2)`, the triple of the second push,
so the pulls are not in push order. -/
theorem pulls_not_in_push_order :
    (pullKeys 64 2 ([(1, 1, 1), (2, 2, 2)].foldl (pushKey 64) fresh)).1
      = [(2, 2, 2), (1, 1, 1)] ∧
    (pullKeys 64 2 ([(1, 1, 1), (2, 2, 2)].foldl (pushKey 64) fresh)).1
      ≠ [(1, 1, 1), (2, 2, 2)] := by
  decide

/-- C2: in a state whose queue holds fewer than `BSIZE` events and whose
registers are in range (`a ≤ 0xFF`, `b ≤ 0xFFFF`, `c ≤ 7`), `PUSH_KEY`
followed by `PULL_KEY` leaves `a`, `b`, `c` and the queue as they were
before the push; the whole device state is the one before the push. -/
theorem push_then_pull_restores (BSIZE : Nat) (s : GKeyboardDev)
    (hq : s.keybuffer.length < BSIZE) (ha : s.a ≤ 0xFF) (hb : s.b ≤ 0xFFFF) (hc : s.c ≤ 7) :
    (SendCMD BSIZE (SendCMD BSIZE s 0x0002) 0x0001).a = s.a ∧
    (SendCMD BSIZE (SendCMD BSIZE s 0x0002) 0x0001).b = s.b ∧
    (SendCMD BSIZE (SendCMD BSIZE s 0x0002) 0x0001).c = s.c ∧
    (SendCMD BSIZE (SendCMD BSIZE s 0x0002) 0x0001).keybuffer = s.keybuffer ∧
    SendCMD BSIZE (SendCMD BSIZE s 0x0002) 0x0001 = s := by
  obtain ⟨ua, ub, uc⟩ := unpack_keyevent s.a s.b s.c ha hb hc
  have h : SendCMD BSIZE (SendCMD BSIZE s 0x0002) 0x0001 = s := by
    simp only [SendCMD, hq]
    simp only [Nat.reduceEqDiff, ↓reduceIte, one_ne_zero]
    rw [ua, ub, uc]
  rw [h]
  exact ⟨rfl, rfl, rfl, rfl, rfl⟩

theorem push_then_pull_restores_witness :
    ([] : List Nat).length < 64 ∧ 0x41 ≤ 0xFF ∧ 0x001E ≤ 0xFFFF ∧ 0x02 ≤ 7 ∧
    (SendCMD 64 (SendCMD 64 { fresh with a := 0x41, b := 0x001E, c := 0x02 } 0x0002) 0x0001)
      = { fresh with a := 0x41, b := 0x001E, c := 0x02 } :=
  ⟨by decide, by decide, by decide, by decide,
    (push_then_pull_restores 64 { fresh with a := 0x41, b := 0x001E, c := 0x02 }
      (by decide) (by decide) (by decide) (by decide)).2.2.2.2⟩

end gkeyboard.GKeyboardDev

/-- C3: for both devices `DoesInterrupt` returns true exactly when the
pending flag is set and the latched message is not zero; when it returns
true the message it delivers is the latched one; it returns false whenever
the latched message is zero; and the device is left as it was. -/
theorem doesInterrupt_latch (k : gkeyboard.GKeyboardDev) (t : tda.TDADev) (msg : Nat) :
    (((k.DoesInterrupt msg).2.1 = true ↔ (k.do_int = true ∧ k.int_msg ≠ 0)) ∧
      ((k.DoesInterrupt msg).2.1 = true → (k.DoesInterrupt msg).2.2 = k.int_msg) ∧
      (k.int_msg = 0 → (k.DoesInterrupt msg).2.1 = false) ∧
      (k.DoesInterrupt msg).1 = k) ∧
    (((t.DoesInterrupt msg).2.1 = true ↔ (t.do_vsync = true ∧ t.vsync_msg ≠ 0)) ∧
      ((t.DoesInterrupt msg).2.1 = true → (t.DoesInterrupt msg).2.2 = t.vsync_msg) ∧
      (t.vsync_msg = 0 → (t.DoesInterrupt msg).2.1 = false) ∧
      (t.DoesInterrupt msg).1 = t) := by
  refine ⟨?_, ?_⟩
  · by_cases h : (k.do_int && k.int_msg != 0) = true
    · have h2 := h
      simp only [Bool.and_eq_true, bne_iff_ne, ne_eq] at h2
      simp only [gkeyboard.GKeyboardDev.DoesInterrupt, h, if_true]
      exact ⟨⟨fun _ => h2, fun _ => trivial⟩, fun _ => trivial, fun h0 => absurd h0 h2.2, trivial⟩
    · have h2 := h
      simp only [Bool.and_eq_true, bne_iff_ne, ne_eq] at h2
      simp only [gkeyboard.GKeyboardDev.DoesInterrupt, h]
      simp [h2]
  · by_cases h : (t.do_vsync && t.vsync_msg != 0) = true
    · have h2 := h
      simp only [Bool.and_eq_true, bne_iff_ne, ne_eq] at h2
      simp only [tda.TDADev.DoesInterrupt, h, if_true]
      exact ⟨⟨fun _ => h2, fun _ => trivial⟩, fun _ => trivial, fun h0 => absurd h0 h2.2, trivial⟩
    · have h2 := h
      simp only [Bool.and_eq_true, bne_iff_ne, ne_eq] at h2
      simp only [tda.TDADev.DoesInterrupt, h]
      simp [h2]

namespace tda

/-- C4 at the failing input: the snapshot of a device with `buffer_ptr =
0x2000` and `font_ptr = 0x1000`, restored into a freshly reset device,
gives `buffer_ptr = 0x1000` and `font_ptr = 0`, not the state the snapshot
was taken from. -/
theorem tda_roundtrip_misplaces_font_ptr :
    TDADev.SetState (fun _ => true) (TDADev.Reset TDADev.fresh)
        (TDADev.GetState id TDADev.sampleDev emptySnapshot)
      = (true, { TDADev.sampleDev with buffer_ptr := 0x1000, font_ptr := 0 }) ∧
    TDADev.SetState (fun _ => true) (TDADev.Reset TDADev.fresh)
        (TDADev.GetState id TDADev.sampleDev emptySnapshot)
      ≠ (true, TDADev.sampleDev) := by
  decide

end tda

namespace gkeyboard.GKeyboardDev

/-- C5: for every keyboard state `s` (registers and message within their
16-bit type, queue entries within 32 bits, any queue contents), `SetState`
applied to a freshly `Reset` keyboard with the snapshot `GetState` made of
`s` returns true, provided the base class accepts that snapshot, and
yields the state `s`: same registers, same `int_msg` and `do_int`, same
queue front to back. -/
theorem keyboard_snapshot_roundtrip (Device_GetState : DeviceState → DeviceState)
    (Device_SetState : DeviceState → Bool) (s s1 : GKeyboardDev) (out : DeviceState)
    (hs : WellTyped s)
    (hbase : Device_SetState (GetState Device_GetState s out) = true) :
    SetState Device_SetState (Reset s1) (GetState Device_GetState s out) = (true, s) := by
  obtain ⟨ha, hb, hc, hm, hq⟩ := hs
  unfold SetState
  rw [hbase]
  simp only [Bool.not_true, Bool.false_eq_true, if_false]
  by_cases hk : s.keybuffer = []
  · simp [GetState, hk, Reset, applyProperty, intProperty, boolProperty,
      Nat.mod_eq_of_lt ha, Nat.mod_eq_of_lt hb, Nat.mod_eq_of_lt hc, Nat.mod_eq_of_lt hm]
    cases s
    simp_all
  · simp only [GetState, hk, Reset, applyProperty, intProperty, boolProperty, rawProperty,
      ne_eq, not_false_eq_true, if_true, List.nil_append, List.cons_append, List.foldl_cons,
      List.foldl_nil]
    simp only [String.reduceEq, if_false, if_true, foldl_push_back,
      map_readDWord_rawOfDWords s.keybuffer hq, Nat.mod_eq_of_lt ha, Nat.mod_eq_of_lt hb,
      Nat.mod_eq_of_lt hc, Nat.mod_eq_of_lt hm, List.nil_append]

theorem keyboard_snapshot_roundtrip_witness :
    WellTyped sampleDev ∧
    (fun _ : DeviceState => true) (GetState id sampleDev emptySnapshot) = true ∧
    SetState (fun _ => true) (Reset fresh) (GetState id sampleDev emptySnapshot)
      = (true, sampleDev) :=
  ⟨by decide, rfl,
    keyboard_snapshot_roundtrip id (fun _ => true) sampleDev fresh emptySnapshot
      (by decide) rfl⟩

end gkeyboard.GKeyboardDev

namespace tda

/-- C6 at the failing input, the call 13 (calls counted from 0): on the
screen of the scenario, with the counter started at 0 and threaded through
the calls, the counter before call 13 is 0 again and call 13 paints every
pixel of the cursor rectangle with the cursor colour.  In general the
counter before call `k` is `blinkFrames k`, of period 13, and after call `k`
a pixel of the cursor rectangle has the cursor colour when `k mod 13 < 8`
and the colour of the text pass otherwise. -/
theorem blink_cycle_has_period_13 (PALETTE ROM_FONT txt font : Nat → Nat) (user_font : Bool)
    (color : Nat) (texture : Nat → Nat) (x : Fin 8) (y : Fin 2) :
    (renderCalls PALETTE ROM_FONT (witnessScreen txt font user_font color) 13 (texture, 0)).2
      = 0 ∧
    (renderCalls PALETTE ROM_FONT (witnessScreen txt font user_font color) 14
        (texture, 0)).1 (x + 320 * (6 + y)) = PALETTE color ∧
    ∀ k : Nat,
      (renderCalls PALETTE ROM_FONT (witnessScreen txt font user_font color) k (texture, 0)).2
        = blinkFrames k ∧
      (renderCalls PALETTE ROM_FONT (witnessScreen txt font user_font color) (k + 1)
          (texture, 0)).1 (x + 320 * (6 + y))
        = if k % 13 < 8 then PALETTE color
          else paintText PALETTE (if user_font then font else ROM_FONT)
            (witnessScreen txt font user_font color) texture (x + 320 * (6 + y)) := by
  have gen : ∀ k : Nat,
      (renderCalls PALETTE ROM_FONT (witnessScreen txt font user_font color) k (texture, 0)).2
        = blinkFrames k ∧
      (renderCalls PALETTE ROM_FONT (witnessScreen txt font user_font color) (k + 1)
          (texture, 0)).1 (x + 320 * (6 + y))
        = if k % 13 < 8 then PALETTE color
          else paintText PALETTE (if user_font then font else ROM_FONT)
            (witnessScreen txt font user_font color) texture (x + 320 * (6 + y)) := by
    intro k
    have hf := renderCalls_frames PALETTE ROM_FONT (witnessScreen txt font user_font color)
      texture rfl k
    refine ⟨hf, ?_⟩
    have hx : (x : Nat) < 8 := x.isLt
    have hy : (y : Nat) < 2 := y.isLt
    have e : (x : Nat) + 320 * (6 + y) = x + 0 * 8 + (40 * 8 * ((6 + y) + 0 * 8)) := by omega
    simp only [renderCalls]
    rw [hf, e]
    unfold TDAtoRGBATexture
    by_cases hk : k % 13 < 8
    · have hb : blinkFrames k < 8 := by unfold blinkFrames; split_ifs <;> omega
      simp only [witnessScreen, hb, hk, if_true]
      simp only [Nat.zero_mod, Nat.reduceLT, Nat.reduceLeDiff, and_self, if_true]
      exact paintCursor_pixel _ 0 0 _ x (6 + y) _ hx (by simp) (by simp; omega)
    · have hb : ¬ blinkFrames k < 8 := by unfold blinkFrames; split_ifs <;> omega
      simp only [witnessScreen, hb, hk, if_true, if_false]
      by_cases h16 : (blinkFrames k + 1) % 4294967296 < 16 <;>
        simp only [h16, if_true, if_false] <;>
        exact paintText_pixel_indep _ _ _ 0 0 x (6 + y) _ _ (by decide) (by decide) hx
          (by omega)
  refine ⟨(gen 13).1, ?_, gen⟩
  have h13 := (gen 13).2
  rw [if_pos (by decide)] at h13
  have e14 : (14 : Nat) = 13 + 1 := rfl
  rw [e14]
  exact h13

/-- C7 at the failing input: with a text buffer of 2400 bytes and 131072
bytes of RAM, the candidate `(1 << 16) | 0xF6A0 = 128672` ends exactly at
the end of RAM, and `MAP_BUFFER` leaves `buffer_ptr` at its prior value 0. -/
theorem map_buffer_exact_fit_rejected :
    ((0x0001 <<< 16) ||| 0xF6A0) % 4294967296 = 128672 ∧ 128672 + 2400 ≤ 131072 ∧
    (TDADev.SendCMD 2400 2048 131072 32768
        { TDADev.fresh with a := 0xF6A0, b := 0x0001 } 0x0000).buffer_ptr = 0 := by
  decide

/-- C8 at the failing input: with a font of 2048 bytes, 131072 bytes of RAM
and 32768 bytes of ROM, the candidate `(0xF << 16) | 0xFFFF = 0xFFFFF` is
below `0x100000` and does not fit in RAM, and `MAP_FONT` commits it.  The
last statement needs no wrap of a sum: with 1024 bytes of RAM and a ROM
size of `2^32 - 2^20 + 2048` the candidate 0 replaces the prior pointer
`0x3000`. -/
theorem map_font_below_rom_base_committed :
    ((0x000F <<< 16) ||| 0xFFFF) % 4294967296 = 0xFFFFF ∧ 0xFFFFF < 0x100000 ∧
    ¬ (0xFFFFF + 2048 ≤ 131072) ∧
    (TDADev.SendCMD 2400 2048 131072 32768
        { TDADev.fresh with a := 0xFFFF, b := 0x000F } 0x0001).font_ptr = 0xFFFFF ∧
    (TDADev.SendCMD 2400 2048 1024 4293920768
        { TDADev.fresh with font_ptr := 0x3000 } 0x0001).font_ptr = 0 := by
  decide

end tda

namespace gkeyboard.GKeyboardDev

/-- C9 (as the code has it): the bound `queue size ≤ BSIZE` is kept by
`Reset`, by `SendCMD` for every command code and by `IACK`, hence by every
sequence of register writes and such calls; `SetState` keeps it for the
snapshots whose `keybuffer` properties carry at most `BSIZE` words, the
restored queue having exactly as many events as the snapshot carries. -/
theorem queue_bound_preserved (BSIZE : Nat) (s : GKeyboardDev)
    (h : s.keybuffer.length ≤ BSIZE) :
    (Reset s).keybuffer.length ≤ BSIZE ∧
    (∀ cmd, (SendCMD BSIZE s cmd).keybuffer.length ≤ BSIZE) ∧
    (IACK s).keybuffer.length ≤ BSIZE ∧
    (∀ ops, (run BSIZE ops s).keybuffer.length ≤ BSIZE) ∧
    (∀ (Device_SetState : DeviceState → Bool) (inp : DeviceState),
      (SetState Device_SetState s inp).1 = true →
        (SetState Device_SetState s inp).2.keybuffer.length = snapshotWords inp.properties) ∧
    (∀ (Device_SetState : DeviceState → Bool) (inp : DeviceState),
      snapshotWords inp.properties ≤ BSIZE →
        (SetState Device_SetState s inp).2.keybuffer.length ≤ BSIZE) := by
  refine ⟨step_length_le BSIZE s Op.reset h, fun cmd => step_length_le BSIZE s (Op.sendCMD cmd) h,
    step_length_le BSIZE s Op.iack h, fun ops => run_length_le BSIZE ops s h,
    fun D inp => setState_length D s inp, ?_⟩
  · intro D inp hw
    cases hD : (SetState D s inp).1
    · have : (SetState D s inp).2 = s := by
        unfold SetState at hD ⊢
        cases hd : D inp
        · simp
        · rw [hd] at hD; simp at hD
      rw [this]
      exact h
    · rw [setState_length D s inp hD]
      exact hw

theorem queue_bound_preserved_witness :
    sampleDev.keybuffer.length ≤ 64 ∧
    (SendCMD 64 sampleDev 0x0002).keybuffer.length ≤ 64 :=
  ⟨by decide, (queue_bound_preserved 64 sampleDev (by decide)).2.1 0x0002⟩

/-- C9 (as stated) fails for `SetState`: with capacity 64, a snapshot that
the base class accepts and whose `keybuffer` blob holds 65 events takes a
freshly reset keyboard, whose queue is empty, to a queue of 65 events. -/
theorem setState_exceeds_queue_bound :
    (Reset fresh).keybuffer.length ≤ 64 ∧
    (SetState (fun _ => true) (Reset fresh) oversizedSnapshot).1 = true ∧
    (SetState (fun _ => true) (Reset fresh) oversizedSnapshot).2.keybuffer.length = 65 ∧
    ¬ (SetState (fun _ => true) (Reset fresh) oversizedSnapshot).2.keybuffer.length ≤ 64 := by
  have hl : (SetState (fun _ => true) (Reset fresh) oversizedSnapshot).2.keybuffer.length
      = 65 := by
    have hw : ∀ bytes : List Nat,
        snapshotWords [rawProperty "keybuffer" bytes] = bytes.length / 4 := by
      intro bytes
      simp [snapshotWords, rawProperty]
    have hp : oversizedSnapshot.properties
        = [rawProperty "keybuffer" (List.replicate 260 0)] := rfl
    rw [setState_length (fun _ => true) (Reset fresh) oversizedSnapshot rfl, hp, hw,
      List.length_replicate]
  refine ⟨by decide, rfl, hl, ?_⟩
  rw [hl]
  decide

end gkeyboard.GKeyboardDev

namespace tda

/-- C10: for every screen, initial counter and pixel index `i < 320*240`
the pixel of `TDAtoBGRATexture` is the pixel of `TDAtoRGBATexture` with
byte lanes 0 and 2 exchanged and lanes 1 and 3 kept, and both calls leave
the same frame counter. -/
theorem bgra_is_rgba_red_blue_swapped (PALETTE ROM_FONT : Nat → Nat) (screen : TDAScreen)
    (texture : Nat → Nat) (frames i : Nat) (hi : i < 320 * 240) :
    (TDAtoBGRATexture PALETTE ROM_FONT screen texture frames).1 i
      = swapRedBlueSpec ((TDAtoRGBATexture PALETTE ROM_FONT screen texture frames).1 i) ∧
    byteLane ((TDAtoBGRATexture PALETTE ROM_FONT screen texture frames).1 i) 0
      = byteLane ((TDAtoRGBATexture PALETTE ROM_FONT screen texture frames).1 i) 2 ∧
    byteLane ((TDAtoBGRATexture PALETTE ROM_FONT screen texture frames).1 i) 2
      = byteLane ((TDAtoRGBATexture PALETTE ROM_FONT screen texture frames).1 i) 0 ∧
    byteLane ((TDAtoBGRATexture PALETTE ROM_FONT screen texture frames).1 i) 1
      = byteLane ((TDAtoRGBATexture PALETTE ROM_FONT screen texture frames).1 i) 1 ∧
    byteLane ((TDAtoBGRATexture PALETTE ROM_FONT screen texture frames).1 i) 3
      = byteLane ((TDAtoRGBATexture PALETTE ROM_FONT screen texture frames).1 i) 3 ∧
    (TDAtoBGRATexture PALETTE ROM_FONT screen texture frames).2
      = (TDAtoRGBATexture PALETTE ROM_FONT screen texture frames).2 := by
  have h : (TDAtoBGRATexture PALETTE ROM_FONT screen texture frames).1 i
      = swapRedBlueSpec ((TDAtoRGBATexture PALETTE ROM_FONT screen texture frames).1 i) := by
    unfold TDAtoBGRATexture
    simp only []
    rw [foldl_range_map swapPixel, if_pos hi, swapPixel_eq]
  obtain ⟨l0, l2, l1, l3, _⟩ :=
    byteLane_swap ((TDAtoRGBATexture PALETTE ROM_FONT screen texture frames).1 i)
  have hfr : (TDAtoBGRATexture PALETTE ROM_FONT screen texture frames).2
      = (TDAtoRGBATexture PALETTE ROM_FONT screen texture frames).2 := by
    simp only [TDAtoBGRATexture]
  rw [h]
  exact ⟨rfl, l0, l2, l1, l3, hfr⟩

theorem bgra_is_rgba_red_blue_swapped_witness :
    0 < 320 * 240 ∧
    (TDAtoBGRATexture (fun n => n) (fun _ => 0)
        (witnessScreen (fun _ => 0x0F41) (fun _ => 0) false 15) (fun _ => 0) 0).1 0
      = swapRedBlueSpec ((TDAtoRGBATexture (fun n => n) (fun _ => 0)
        (witnessScreen (fun _ => 0x0F41) (fun _ => 0) false 15) (fun _ => 0) 0).1 0) :=
  ⟨by norm_num,
    (bgra_is_rgba_red_blue_swapped (fun n => n) (fun _ => 0)
      (witnessScreen (fun _ => 0x0F41) (fun _ => 0) false 15) (fun _ => 0) 0 0
      (by norm_num)).1⟩

/-- C11: with the cursor disabled, for `row < 30`, `col < 40`, `x < 8`,
`y < 8`, the output pixel at index `x + col*8 + 320*(y + row*8)` is
`PALETTE[fg]` if bit `7 - x` of font byte `8*g + y` is set and
`PALETTE[bg]` otherwise, with `g`, `fg`, `bg` taken from the cell word
`txt_buffer[col + 40*row]` and the font chosen by `user_font`. -/
theorem text_pass_pixel (PALETTE ROM_FONT : Nat → Nat) (screen : TDAScreen)
    (texture : Nat → Nat) (frames row col x y : Nat) (hcur : screen.cursor = false)
    (hr : row < 30) (hc : col < 40) (hx : x < 8) (hy : y < 8) :
    (TDAtoRGBATexture PALETTE ROM_FONT screen texture frames).1
        (x + col * 8 + 320 * (y + row * 8))
      = textPixelSpec PALETTE ROM_FONT screen row col x y := by
  rw [← paintText_eq_spec PALETTE ROM_FONT screen row col x y texture hr hc hx hy,
    TDAtoRGBATexture_texture, if_neg (by simp [hcur])]

theorem text_pass_pixel_witness :
    plainScreen.cursor = false ∧ 2 < 30 ∧ 3 < 40 ∧ 4 < 8 ∧ 5 < 8 ∧
    (TDAtoRGBATexture (fun n => n) (fun _ => 0xFF) plainScreen (fun _ => 0) 0).1
        (4 + 3 * 8 + 320 * (5 + 2 * 8)) = 15 :=
  ⟨rfl, by decide, by decide, by decide, by decide,
    (text_pass_pixel (fun n => n) (fun _ => 0xFF) plainScreen (fun _ => 0) 0 2 3 4 5 rfl
      (by decide) (by decide) (by decide) (by decide)).trans (by decide)⟩

/-- C12: on a call with the cursor enabled and the counter in the on phase
(below 8, in particular 0), the cursor position being a byte each: if
`cur_start ≤ cur_end`, `cur_row < 30` and `cur_col < 40`, every pixel
`(px, py)` of the cursor rectangle has the colour `PALETTE[cur_color]` and
every other pixel has the value of the output with the cursor disabled; if
`cur_start > cur_end` or `cur_row ≥ 30` or `cur_col ≥ 40`, the whole output
is the output with the cursor disabled. -/
theorem cursor_overlay_geometry (PALETTE ROM_FONT : Nat → Nat) (screen : TDAScreen)
    (texture : Nat → Nat) (frames : Nat) (hcur : screen.cursor = true) (hf : frames < 8)
    (hrow : screen.cur_row < 256) (hcol : screen.cur_col < 256) :
    (screen.cur_start ≤ screen.cur_end → screen.cur_row < 30 → screen.cur_col < 40 →
      ∀ px py, px < 320 → py < 240 →
        (TDAtoRGBATexture PALETTE ROM_FONT screen texture frames).1 (px + 320 * py)
          = if screen.cur_col * 8 ≤ px ∧ px < screen.cur_col * 8 + 8 ∧
                screen.cur_row * 8 + screen.cur_start ≤ py ∧
                py ≤ screen.cur_row * 8 + screen.cur_end
            then PALETTE screen.cur_color
            else (TDAtoRGBATexture PALETTE ROM_FONT { screen with cursor := false }
              texture frames).1 (px + 320 * py)) ∧
    ((screen.cur_end < screen.cur_start ∨ 30 ≤ screen.cur_row ∨ 40 ≤ screen.cur_col) →
      (TDAtoRGBATexture PALETTE ROM_FONT screen texture frames).1
        = (TDAtoRGBATexture PALETTE ROM_FONT { screen with cursor := false }
            texture frames).1) := by
  have er : screen.cur_row % 256 = screen.cur_row := Nat.mod_eq_of_lt hrow
  have ec : screen.cur_col % 256 = screen.cur_col := Nat.mod_eq_of_lt hcol
  rw [TDAtoRGBATexture_cursor_off, TDAtoRGBATexture_texture, er, ec]
  constructor
  · intro hse hr hc px py hpx _
    rw [if_pos ⟨hcur, hf, hse, hr, hc⟩]
    by_cases hin : screen.cur_col * 8 ≤ px ∧ px < screen.cur_col * 8 + 8 ∧
        screen.cur_row * 8 + screen.cur_start ≤ py ∧ py ≤ screen.cur_row * 8 + screen.cur_end
    · rw [if_pos hin]
      obtain ⟨h1, h2, h3, h4⟩ := hin
      have e : px + 320 * py = (px - screen.cur_col * 8) + screen.cur_col * 8
          + (40 * 8 * ((py - screen.cur_row * 8) + screen.cur_row * 8)) := by omega
      rw [e]
      exact paintCursor_pixel _ _ _ _ _ _ _ (by omega) (by omega) (by omega)
    · rw [if_neg hin]
      apply paintCursor_untouched
      intro x y hx hy1 hy2 heq
      apply hin
      omega
  · intro hout
    rw [if_neg]
    rintro ⟨_, _, hse, hr, hc⟩
    omega

theorem cursor_overlay_geometry_witness :
    (witnessScreen (fun _ => 0x0F41) (fun _ => 0) false 15).cursor = true ∧ 0 < 8 ∧
    (witnessScreen (fun _ => 0x0F41) (fun _ => 0) false 15).cur_row < 256 ∧
    (witnessScreen (fun _ => 0x0F41) (fun _ => 0) false 15).cur_col < 256 ∧
    (TDAtoRGBATexture (fun n => n) (fun _ => 0xFF)
        (witnessScreen (fun _ => 0x0F41) (fun _ => 0) false 15) (fun _ => 0) 0).1
        (3 + 320 * 6) = 15 :=
  ⟨rfl, by decide, by decide, by decide,
    ((cursor_overlay_geometry (fun n => n) (fun _ => 0xFF)
      (witnessScreen (fun _ => 0x0F41) (fun _ => 0) false 15) (fun _ => 0) 0 rfl
      (by decide) (by decide) (by decide)).1 (by decide) (by decide) (by decide) 3 6
      (by decide) (by decide)).trans (if_pos (by decide))⟩

end tda

/-- C13 (as the code has it): when the base restore accepts the snapshot,
`SetState` keeps `int_msg` and `do_int` of the keyboard and `vsync_msg`,
`do_vsync`, `cursor`, `blink` and `font_ptr` of the display adapter when
the property of that name is absent, and keeps `buffer_ptr` when neither a
`buffer_ptr` nor a `font_ptr` property is present; the key queue is emptied
first, so without a `keybuffer` property it is empty after the call. -/
theorem setState_keeps_absent_fields (Device_SetState : DeviceState → Bool)
    (k : gkeyboard.GKeyboardDev) (t : tda.TDADev) (inp : DeviceState)
    (hbase : Device_SetState inp = true) :
    ((k.SetState Device_SetState inp).1 = true ∧
      ((∀ p ∈ inp.properties, p.name ≠ "int_msg") →
        (k.SetState Device_SetState inp).2.int_msg = k.int_msg) ∧
      ((∀ p ∈ inp.properties, p.name ≠ "do_int") →
        (k.SetState Device_SetState inp).2.do_int = k.do_int) ∧
      ((∀ p ∈ inp.properties, p.name ≠ "keybuffer") →
        (k.SetState Device_SetState inp).2.keybuffer = [])) ∧
    ((t.SetState Device_SetState inp).1 = true ∧
      ((∀ p ∈ inp.properties, p.name ≠ "vsync_msg") →
        (t.SetState Device_SetState inp).2.vsync_msg = t.vsync_msg) ∧
      ((∀ p ∈ inp.properties, p.name ≠ "do_vsync") →
        (t.SetState Device_SetState inp).2.do_vsync = t.do_vsync) ∧
      ((∀ p ∈ inp.properties, p.name ≠ "cursor") →
        (t.SetState Device_SetState inp).2.cursor = t.cursor) ∧
      ((∀ p ∈ inp.properties, p.name ≠ "blink") →
        (t.SetState Device_SetState inp).2.blink = t.blink) ∧
      ((∀ p ∈ inp.properties, p.name ≠ "font_ptr") →
        (t.SetState Device_SetState inp).2.font_ptr = t.font_ptr) ∧
      ((∀ p ∈ inp.properties, p.name ≠ "buffer_ptr" ∧ p.name ≠ "font_ptr") →
        (t.SetState Device_SetState inp).2.buffer_ptr = t.buffer_ptr)) := by
  constructor
  · simp only [gkeyboard.GKeyboardDev.SetState, hbase, Bool.not_true, Bool.false_eq_true,
      if_false, true_and]
    refine ⟨fun h => ?_, fun h => ?_, fun h => ?_⟩
    · rw [foldl_keeps gkeyboard.GKeyboardDev.applyProperty (fun s => s.int_msg) _
        (fun s p hp => gkeyboard.GKeyboardDev.applyProperty_int_msg s p hp) _ _ h]
    · rw [foldl_keeps gkeyboard.GKeyboardDev.applyProperty (fun s => s.do_int) _
        (fun s p hp => gkeyboard.GKeyboardDev.applyProperty_do_int s p hp) _ _ h]
    · rw [foldl_keeps gkeyboard.GKeyboardDev.applyProperty (fun s => s.keybuffer) _
        (fun s p hp => gkeyboard.GKeyboardDev.applyProperty_keybuffer s p hp) _ _ h]
  · simp only [tda.TDADev.SetState, hbase, Bool.not_true, Bool.false_eq_true,
      if_false, true_and]
    refine ⟨fun h => ?_, fun h => ?_, fun h => ?_, fun h => ?_, fun _ => ?_, fun h => ?_⟩
    · rw [foldl_keeps tda.TDADev.applyProperty (fun s => s.vsync_msg) _
        (fun s p hp => (tda.TDADev.applyProperty_frame s p).1 hp) _ _ h]
    · rw [foldl_keeps tda.TDADev.applyProperty (fun s => s.do_vsync) _
        (fun s p hp => (tda.TDADev.applyProperty_frame s p).2.1 hp) _ _ h]
    · rw [foldl_keeps tda.TDADev.applyProperty (fun s => s.cursor) _
        (fun s p hp => (tda.TDADev.applyProperty_frame s p).2.2.1 hp) _ _ h]
    · rw [foldl_keeps tda.TDADev.applyProperty (fun s => s.blink) _
        (fun s p hp => (tda.TDADev.applyProperty_frame s p).2.2.2.1 hp) _ _ h]
    · rw [foldl_keeps tda.TDADev.applyProperty (fun s => s.font_ptr) (fun _ => True)
        (fun s p _ => (tda.TDADev.applyProperty_frame s p).2.2.2.2.2) _ _
        (fun _ _ => trivial)]
    · rw [foldl_keeps tda.TDADev.applyProperty (fun s => s.buffer_ptr) _
        (fun s p hp => (tda.TDADev.applyProperty_frame s p).2.2.2.2.1 hp) _ _ h]

theorem setState_keeps_absent_fields_witness :
    (fun _ : DeviceState => true) emptySnapshot = true ∧
    ((gkeyboard.GKeyboardDev.sampleDev.SetState (fun _ => true) emptySnapshot).2.int_msg
      = gkeyboard.GKeyboardDev.sampleDev.int_msg) ∧
    ((tda.TDADev.sampleDev.SetState (fun _ => true) emptySnapshot).2.font_ptr
      = tda.TDADev.sampleDev.font_ptr) :=
  ⟨rfl,
    (setState_keeps_absent_fields (fun _ => true) gkeyboard.GKeyboardDev.sampleDev
      tda.TDADev.sampleDev emptySnapshot rfl).1.2.1 (by simp [emptySnapshot]),
    (setState_keeps_absent_fields (fun _ => true) gkeyboard.GKeyboardDev.sampleDev
      tda.TDADev.sampleDev emptySnapshot rfl).2.2.2.2.2.2.1 (by simp [emptySnapshot])⟩

/-- C13 (as stated) fails for the key queue: a keyboard that holds two
events, given a snapshot without any property that the base restore
accepts, has an empty queue after `SetState`. -/
theorem setState_empties_queue_without_property :
    gkeyboard.GKeyboardDev.sampleDev.keybuffer = [0x0241001E, 0x00420030] ∧
    (∀ p ∈ emptySnapshot.properties, p.name ≠ "keybuffer") ∧
    (gkeyboard.GKeyboardDev.sampleDev.SetState (fun _ => true) emptySnapshot).1 = true ∧
    (gkeyboard.GKeyboardDev.sampleDev.SetState (fun _ => true) emptySnapshot).2.keybuffer
      = [] := by
  refine ⟨rfl, ?_, rfl, rfl⟩
  simp [emptySnapshot]

namespace tda

/-- C14 at the failing input: two snapshots with the same registers and the
same two properties `buffer_ptr = 0x2000` and `font_ptr = 0x1000`, of
distinct names, in the two possible orders, restored into the same freshly
reset device, give `buffer_ptr = 0x1000` and `buffer_ptr = 0x2000`. -/
theorem setState_depends_on_property_order :
    TDADev.pointerSnapshotSwapped.properties = TDADev.pointerSnapshot.properties.reverse ∧
    (TDADev.pointerSnapshot.properties.map (fun p => p.name)).Nodup ∧
    (TDADev.SetState (fun _ => true) TDADev.fresh TDADev.pointerSnapshot).2.buffer_ptr
      = 0x1000 ∧
    (TDADev.SetState (fun _ => true) TDADev.fresh TDADev.pointerSnapshotSwapped).2.buffer_ptr
      = 0x2000 ∧
    TDADev.SetState (fun _ => true) TDADev.fresh TDADev.pointerSnapshot
      ≠ TDADev.SetState (fun _ => true) TDADev.fresh TDADev.pointerSnapshotSwapped := by
  decide

end tda

/-- C15: a command code above `0x0003` leaves the whole keyboard state
unchanged and a command code above `0x0002` leaves the whole display
adapter state unchanged. -/
theorem unrecognised_command_is_noop (BSIZE TXT_BUFFER_SIZE FONT_BUFFER_SIZE RamSize RomSize : Nat)
    (k : gkeyboard.GKeyboardDev) (t : tda.TDADev) (kcmd tcmd : Nat)
    (hk : 0x0003 < kcmd) (ht : 0x0002 < tcmd) :
    gkeyboard.GKeyboardDev.SendCMD BSIZE k kcmd = k ∧
    tda.TDADev.SendCMD TXT_BUFFER_SIZE FONT_BUFFER_SIZE RamSize RomSize t tcmd = t := by
  constructor
  · unfold gkeyboard.GKeyboardDev.SendCMD
    rw [if_neg (by omega), if_neg (by omega), if_neg (by omega), if_neg (by omega)]
  · unfold tda.TDADev.SendCMD
    rw [if_neg (by omega), if_neg (by omega), if_neg (by omega)]

theorem unrecognised_command_is_noop_witness :
    0x0003 < 0x0004 ∧ 0x0002 < 0x0003 ∧
    gkeyboard.GKeyboardDev.SendCMD 64 gkeyboard.GKeyboardDev.sampleDev 0x0004
      = gkeyboard.GKeyboardDev.sampleDev ∧
    tda.TDADev.SendCMD 2400 2048 131072 32768 tda.TDADev.sampleDev 0x0003
      = tda.TDADev.sampleDev :=
  ⟨by decide, by decide,
    unrecognised_command_is_noop 64 2400 2048 131072 32768 gkeyboard.GKeyboardDev.sampleDev
      tda.TDADev.sampleDev 0x0004 0x0003 (by decide) (by decide)⟩

namespace gkeyboard.GKeyboardDev

/-- C16: in a state whose queue holds exactly `BSIZE` events `PUSH_KEY`
changes nothing: the queue keeps its events in their order and the
registers `a`, `b`, `c`, the interrupt message and the pending flag keep
their values. -/
theorem push_on_full_queue_is_dropped (BSIZE : Nat) (s : GKeyboardDev)
    (hfull : s.keybuffer.length = BSIZE) :
    (SendCMD BSIZE s 0x0002).keybuffer = s.keybuffer ∧
    (SendCMD BSIZE s 0x0002).a = s.a ∧ (SendCMD BSIZE s 0x0002).b = s.b ∧
    (SendCMD BSIZE s 0x0002).c = s.c ∧ (SendCMD BSIZE s 0x0002).int_msg = s.int_msg ∧
    (SendCMD BSIZE s 0x0002).do_int = s.do_int ∧ SendCMD BSIZE s 0x0002 = s := by
  have h : SendCMD BSIZE s 0x0002 = s := by
    simp only [SendCMD]
    simp only [Nat.reduceEqDiff, ↓reduceIte, OfNat.ofNat_ne_zero, OfNat.ofNat_ne_one]
    rw [if_neg (by omega)]
  rw [h]
  exact ⟨rfl, rfl, rfl, rfl, rfl, rfl, rfl⟩

theorem push_on_full_queue_is_dropped_witness :
    sampleDev.keybuffer.length = 2 ∧ SendCMD 2 sampleDev 0x0002 = sampleDev :=
  ⟨rfl, (push_on_full_queue_is_dropped 2 sampleDev rfl).2.2.2.2.2.2⟩

end gkeyboard.GKeyboardDev

namespace tda

/-- C17: for any two initial contents of the output buffer, one call on the
same screen and counter gives the same value at every one of the
`320 * 240` pixels and the same final counter. -/
theorem render_is_deterministic (PALETTE ROM_FONT : Nat → Nat) (screen : TDAScreen)
    (t1 t2 : Nat → Nat) (frames i : Nat) (hi : i < 320 * 240) :
    (TDAtoRGBATexture PALETTE ROM_FONT screen t1 frames).1 i
      = (TDAtoRGBATexture PALETTE ROM_FONT screen t2 frames).1 i ∧
    (TDAtoRGBATexture PALETTE ROM_FONT screen t1 frames).2
      = (TDAtoRGBATexture PALETTE ROM_FONT screen t2 frames).2 := by
  refine ⟨TDAtoRGBATexture_indep PALETTE ROM_FONT screen t1 t2 frames i hi, ?_⟩
  rw [TDAtoRGBATexture_counter, TDAtoRGBATexture_counter]

theorem render_is_deterministic_witness :
    76799 < 320 * 240 ∧
    (TDAtoRGBATexture (fun n => n) (fun _ => 0xFF)
        (witnessScreen (fun _ => 0x0F41) (fun _ => 0) false 15) (fun _ => 0) 0).1 76799
      = (TDAtoRGBATexture (fun n => n) (fun _ => 0xFF)
        (witnessScreen (fun _ => 0x0F41) (fun _ => 0) false 15) (fun n => n + 1) 0).1 76799 :=
  ⟨by norm_num,
    (render_is_deterministic (fun n => n) (fun _ => 0xFF)
      (witnessScreen (fun _ => 0x0F41) (fun _ => 0) false 15) (fun _ => 0) (fun n => n + 1)
      0 76799 (by norm_num)).1⟩

end tda

/-- C18: for both devices, after `IACK` the pending flag is false, a
following `DoesInterrupt` returns false, and the latched message, the
registers, the key queue, the mapped pointers and the cursor and blink
flags are as before the call. -/
theorem iack_clears_only_pending (k : gkeyboard.GKeyboardDev) (t : tda.TDADev) (msg : Nat) :
    (k.IACK.do_int = false ∧ (k.IACK.DoesInterrupt msg).2.1 = false ∧
      k.IACK.int_msg = k.int_msg ∧ k.IACK.a = k.a ∧ k.IACK.b = k.b ∧ k.IACK.c = k.c ∧
      k.IACK.keybuffer = k.keybuffer) ∧
    (t.IACK.do_vsync = false ∧ (t.IACK.DoesInterrupt msg).2.1 = false ∧
      t.IACK.vsync_msg = t.vsync_msg ∧ t.IACK.a = t.a ∧ t.IACK.b = t.b ∧ t.IACK.d = t.d ∧
      t.IACK.e = t.e ∧ t.IACK.buffer_ptr = t.buffer_ptr ∧ t.IACK.font_ptr = t.font_ptr ∧
      t.IACK.cursor = t.cursor ∧ t.IACK.blink = t.blink) := by
  refine ⟨⟨rfl, ?_, rfl, rfl, rfl, rfl, rfl⟩,
    ⟨rfl, ?_, rfl, rfl, rfl, rfl, rfl, rfl, rfl, rfl, rfl⟩⟩
  · simp [gkeyboard.GKeyboardDev.IACK, gkeyboard.GKeyboardDev.DoesInterrupt]
  · simp [tda.TDADev.IACK, tda.TDADev.DoesInterrupt]

namespace tda

/-- C19: for a screen with `cur_end ≤ 7` and a cursor colour below 16 (the
bound `cur_start ≤ 7` is not needed), any cursor row and column and any
counter, every access of one call is in bounds: text buffer indices below
1200, font indices below 2048, palette indices below 16, output indices
below `320 * 240`; and the logged stores, replayed, give the texture the
call leaves. -/
theorem rasterizer_indices_in_bounds (PALETTE ROM_FONT : Nat → Nat) (screen : TDAScreen)
    (texture : Nat → Nat) (frames : Nat) (he : screen.cur_end ≤ 7)
    (hcolor : screen.cur_color < 16) :
    (∀ a ∈ TDAtoRGBATextureLog PALETTE ROM_FONT screen frames, a.InBounds) ∧
    replay (TDAtoRGBATextureLog PALETTE ROM_FONT screen frames) texture
      = (TDAtoRGBATexture PALETTE ROM_FONT screen texture frames).1 := by
  constructor
  · intro a ha
    simp only [TDAtoRGBATextureLog, List.mem_append] at ha
    rcases ha with ha | ha
    · simp only [paintTextLog, List.mem_flatMap, List.mem_range, HEIGHT_CHARS,
        WIDTH_CHARS] at ha
      obtain ⟨row, hr, col, hc, hmem⟩ := ha
      exact paintCellLog_inBounds _ _ _ row col hr hc a hmem
    · split_ifs at ha with h1 h2 h3 h4
      · rcases List.mem_cons.mp ha with rfl | ha'
        · exact hcolor
        · exact paintCursorLog_inBounds _ _ _ _ h4.1 h4.2 he a ha'
      · rcases List.mem_cons.mp ha with rfl | ha'
        · exact hcolor
        · exact absurd ha' (List.not_mem_nil _)
      all_goals exact absurd ha (List.not_mem_nil _)
  · exact replay_TDAtoRGBATextureLog PALETTE ROM_FONT screen texture frames

theorem rasterizer_indices_in_bounds_witness :
    (witnessScreen (fun _ => 0x0F41) (fun _ => 0) false 15).cur_end ≤ 7 ∧
    (witnessScreen (fun _ => 0x0F41) (fun _ => 0) false 15).cur_color < 16 ∧
    ∀ a ∈ TDAtoRGBATextureLog (fun n => n) (fun _ => 0xFF)
      (witnessScreen (fun _ => 0x0F41) (fun _ => 0) false 15) 0, a.InBounds :=
  ⟨by decide, by decide,
    (rasterizer_indices_in_bounds (fun n => n) (fun _ => 0xFF)
      (witnessScreen (fun _ => 0x0F41) (fun _ => 0) false 15) (fun _ => 0) 0
      (by decide) (by decide)).1⟩

end tda

namespace gkeyboard.GKeyboardDev

/-- C20: in every state reached from a reset keyboard by register writes,
`SendCMD` with any command code, `IACK` and `Reset`, every queued event is
below `2^27`, and a `PULL_KEY` sent in such a state leaves `c ≤ 7` and
`a ≤ 0xFF`. -/
theorem queued_events_well_formed (BSIZE : Nat) (s0 : GKeyboardDev) (ops : List Op) :
    (∀ ev ∈ (run BSIZE ops (Reset s0)).keybuffer, ev < 2 ^ 27) ∧
    (SendCMD BSIZE (run BSIZE ops (Reset s0)) 0x0001).c ≤ 7 ∧
    (SendCMD BSIZE (run BSIZE ops (Reset s0)) 0x0001).a ≤ 0xFF := by
  have h := run_keeps_events BSIZE ops (Reset s0) (by simp [Reset])
  exact ⟨h.2, pull_regs_le BSIZE _ h.2⟩

end gkeyboard.GKeyboardDev

end trillek.computer
